import Mathlib

/-!
Verification development for the `synthex` schema-driven mock-data generator
(`src/index.ts`).  The TypeScript source is shallowly embedded: JS numbers are
modelled as `ℚ` (the engine performs only field arithmetic on them; binary64
rounding is abstracted away), JS values as the inductive `Val`, the mutable
pseudo-random source as an explicit draw stream `ℕ → ℚ` consumed at an index
that is threaded through every operation, thrown exceptions as `Except`, and
recursion through schema trees is bounded by an explicit `fuel` argument whose
exhaustion models a JS stack overflow (a plain `Error`, wrapped by `generate`
into a `GENERATION_ERROR` like any other non-`SyntexError` exception).
`Math.sin` and ambient `Math.random()` entropy are kept as explicit function
parameters `sinA` / `entropy`, so theorems quantify over every possible
behaviour of those sources.
-/

/-- JS runtime values produced by the generator (JSON-like; `vnull` is JS
`null`).  Dates are represented by the ISO string the source produces, with the
textual ISO-8601 rendering abstracted by an injective encoding of the
millisecond timestamp (no claim depends on the exact date text). -/
inductive Val where
  | vnull : Val
  | vbool : Bool → Val
  | vnum : ℚ → Val
  | vstr : String → Val
  | varr : List Val → Val
  | vobj : List (String × Val) → Val
deriving Inhabited

/-- A JS object is modelled as an insertion-ordered association list with
unique keys, exactly the observable behaviour of `Record<string, any>`. -/
abbrev JData := List (String × Val)

/-- JS property write `o[k] = v`: overwrite in place if the key exists
(preserving key order), else append. -/
def objSet : JData → String → Val → JData
  | [], k, v => [(k, v)]
  | (k0, v0) :: rest, k, v =>
      if k0 = k then (k0, v) :: rest else (k0, v0) :: objSet rest k v

/-- JS property read `o[k]`, `none` meaning `undefined`. -/
def objGet : JData → String → Option Val
  | [], _ => none
  | (k0, v0) :: rest, k => if k0 = k then some v0 else objGet rest k

/-- Whether `k in o` holds for the modelled object. -/
def objHasKey (d : JData) (k : String) : Bool :=
  (objGet d k).isSome

/-- JS `Number.isInteger` on the rational model of a JS number. -/
def jsIsInteger (q : ℚ) : Bool := q.den = 1

/-- Decimal rendering of a JS number.  Integers render exactly as JS does;
for non-integers the binary64 shortest-decimal output is abstracted by the
rational's `num/den` notation (no claim depends on that text). -/
def jsNumToString (q : ℚ) : String :=
  if q.den = 1 then toString q.num else toString q.num ++ "/" ++ toString q.den

/-- Iteration count of a JS `for (let i = 0; i < q; i++)` loop over integer
`i` and a (possibly fractional or negative) numeric bound `q`. -/
def jsLoopCount (q : ℚ) : ℕ := if q ≤ 0 then 0 else (Int.toNat ⌈q⌉)

/-- Truthiness of a modelled JS value (`""`, `0`, `false`, `null` are falsy;
every array/object is truthy). -/
def valTruthy : Val → Bool
  | .vnull => false
  | .vbool b => b
  | .vnum q => !(q = 0)
  | .vstr s => !(s = "")
  | .varr _ => true
  | .vobj _ => true

/-- JS `opt || dflt` on an optional number: `undefined` and `0` both select
the default (`0` is falsy). -/
def jsOrNum (o : Option ℚ) (dflt : ℚ) : ℚ :=
  match o with
  | none => dflt
  | some q => if q = 0 then dflt else q

/-- Left brace character, written via its code point. -/
def lbrace : Char := Char.ofNat 123

/-- Right brace character, written via its code point. -/
def rbrace : Char := Char.ofNat 125

/-- Object spread `{...v}` as a key/value list: objects spread their entries,
arrays and strings spread index→element entries, primitives spread to
nothing. -/
def spreadKVs : Val → JData
  | .vobj kvs => kvs
  | .varr xs => (xs.enum.map fun p => (toString p.1, p.2))
  | .vstr s => (s.toList.enum.map fun p => (toString p.1, Val.vstr (String.singleton p.2)))
  | _ => []

/-- Fold of JS object-literal spreading: later keys overwrite earlier ones in
place. -/
def objMergeInto (base : JData) (extra : JData) : JData :=
  extra.foldl (fun acc kv => objSet acc kv.1 kv.2) base

/-- Work items for the fueled renderings of recursive `Val` traversals
(`String(x)` and `JSON.stringify`); the fuel bounds nesting depth and list
length and models the JS call stack. -/
inductive VJob where
  | one : Val → VJob
  | arrJoin : List Val → VJob

/-- JS `String(x)` / `Array.prototype.toString` (join with ","; `null` joins
as the empty string).  Total thanks to fuel; every concrete evaluation in this
file supplies ample fuel. -/
def jsValToString : ℕ → VJob → String
  | 0, _ => ""
  | _ + 1, .one v =>
      match v with
      | .vnull => "null"
      | .vbool b => cond b "true" "false"
      | .vnum q => jsNumToString q
      | .vstr s => s
      | .varr _ => ""
      | .vobj _ => "[object Object]"
  | fuel + 1, .arrJoin xs =>
      match xs with
      | [] => ""
      | [x] => (match x with | .vnull => "" | _ => jsValToString fuel (.one x))
      | x :: rest =>
          (match x with | .vnull => "" | _ => jsValToString fuel (.one x))
            ++ "," ++ jsValToString fuel (.arrJoin rest)

/-- JS `String(x)` with array joining handled (arrays stringify via
`join(",")`). -/
def jsStringOf (fuel : ℕ) (v : Val) : String :=
  match v with
  | .varr xs => jsValToString fuel (.arrJoin xs)
  | _ => jsValToString (fuel + 1) (.one v)

/-- JSON string escaping as performed by `JSON.stringify` (quote, backslash
and control characters; other characters pass through). -/
def jsonEscapeChar (c : Char) : String :=
  if c = '"' then "\\\""
  else if c = '\\' then "\\\\"
  else if c = '\n' then "\\n"
  else if c = '\r' then "\\r"
  else if c = '\t' then "\\t"
  else if c.toNat < 32 then "\\u00" ++ (if c.toNat < 16 then "0" else "1") ++ String.singleton (Nat.digitChar (c.toNat % 16))
  else String.singleton c

/-- Escape a whole string for JSON output. -/
def jsonEscape (s : String) : String :=
  String.join (s.toList.map jsonEscapeChar)

/-- Work items for the fueled `JSON.stringify` model. -/
inductive JJob where
  | one : Val → JJob
  | arr : List Val → JJob
  | fields : JData → JJob

/-- Compact `JSON.stringify` (no indent), as used for token counting.  The
fuel bounds recursion depth and models the JS call stack; all concrete
evaluations supply ample fuel. -/
def jsonStringifyGo : ℕ → JJob → String
  | 0, _ => ""
  | fuel + 1, .one v =>
      match v with
      | .vnull => "null"
      | .vbool b => cond b "true" "false"
      | .vnum q => jsNumToString q
      | .vstr s => "\"" ++ jsonEscape s ++ "\""
      | .varr xs => "[" ++ jsonStringifyGo fuel (.arr xs) ++ "]"
      | .vobj kvs => String.singleton lbrace ++ jsonStringifyGo fuel (.fields kvs) ++ String.singleton rbrace
  | fuel + 1, .arr xs =>
      match xs with
      | [] => ""
      | [x] => jsonStringifyGo fuel (.one x)
      | x :: rest => jsonStringifyGo fuel (.one x) ++ "," ++ jsonStringifyGo fuel (.arr rest)
  | fuel + 1, .fields kvs =>
      match kvs with
      | [] => ""
      | [(k, v)] => "\"" ++ jsonEscape k ++ "\":" ++ jsonStringifyGo fuel (.one v)
      | (k, v) :: rest =>
          "\"" ++ jsonEscape k ++ "\":" ++ jsonStringifyGo fuel (.one v)
            ++ "," ++ jsonStringifyGo fuel (.fields rest)

/-- Compact `JSON.stringify` of a value. -/
def jsonStringify (fuel : ℕ) (v : Val) : String :=
  jsonStringifyGo fuel (.one v)

/-- Whitespace per the regex class `\s` (the characters the engine can
produce). -/
def isWsChar (c : Char) : Bool :=
  c = ' ' || c = '\t' || c = '\n' || c = '\r'

/-- JS `text.split(/\s+/)` on a character list: splits on maximal whitespace
runs, keeping an empty first (resp. last) element when the text starts
(resp. ends) with whitespace, and `[""]` for the empty text.  The fuel is the
character count, which suffices since every recursive step drops at least one
character. -/
def splitWsGo : ℕ → List Char → List String
  | _, [] => [""]
  | 0, cs => [String.mk cs]
  | fuel + 1, cs =>
      let tok := cs.takeWhile (fun c => !(isWsChar c))
      let rest := cs.dropWhile (fun c => !(isWsChar c))
      match rest with
      | [] => [String.mk tok]
      | _ :: _ => String.mk tok :: splitWsGo fuel (rest.dropWhile isWsChar)

/-- JS `text.split(/\s+/)` on a string. -/
def splitWs (s : String) : List String := splitWsGo s.toList.length s.toList

/-- Error object thrown by the library (`SyntexError`): message plus a
machine-readable code. -/
structure SynError where
  message : String
  code : String
deriving DecidableEq, Inhabited

/-- An exception in flight: either a `SyntexError` (which `generate` rethrows
unchanged) or any other JS error (a string message; rewrapped by `generate`
as `GENERATION_ERROR`). -/
inductive GErr where
  | syn : SynError → GErr
  | js : String → GErr
deriving DecidableEq, Inhabited

/-- The 14 field kinds of `SchemaField.type`.  The TS `type` is a string
union; the separate `INVALID_FIELD_TYPE` check can only fire for raw schema
objects outside this model, so the embedding's dispatch is total. -/
inductive FieldType where
  | fstring | fnumber | fboolean | farray | fobject | fenum | fuuid
  | femail | furl | fdate | funion | fintersection | fnullable | freference
deriving DecidableEq, Inhabited

/-- The `format` field for dates. -/
inductive DFormat where
  | date | dateTime
deriving DecidableEq, Inhabited

/-- One entry of `SchemaField.enum`: a bare literal or a `{value, weight}`
record (the tag captures the source's `typeof item === "object" && "value" in
item` discrimination). -/
inductive EnumVal where
  | plain : Val → EnumVal
  | weighted : Val → ℚ → EnumVal
deriving Inhabited

/-- A user condition predicate `(currentData, globalContext) => boolean`. -/
abbrev CondFn := JData → JData → Bool

/-- A custom generator `(context, currentData, rng) => value`.  The `rng`
handle is modelled by giving the function the draw stream and current index
and letting it return the value together with the advanced index. -/
abbrev GenFn := JData → JData → (ℕ → ℚ) → ℕ → Val × ℕ

/-- The scalar (non-recursive) attributes of a `SchemaField`; `none` is an
absent (`undefined`) attribute. -/
structure FieldOpts where
  required : Option Bool := none
  min : Option ℚ := none
  max : Option ℚ := none
  enumVs : Option (List EnumVal) := none
  pattern : Option String := none
  format : Option DFormat := none
  refName : Option String := none
  probability : Option ℚ := none
  condition : Option CondFn := none
  template : Option String := none
  simulateError : Option Bool := none
  errorType : Option String := none
  generateFn : Option GenFn := none
deriving Inhabited

/-- A `SchemaField`: the scalar attributes, the kind tag, and the recursive
payloads (`items`, `properties`, `unionTypes`, `intersectionTypes`,
`nullableType`). -/
inductive SchemaField where
  | mk
      (opts : FieldOpts)
      (ftype : FieldType)
      (items : Option SchemaField)
      (properties : Option (List (String × SchemaField)))
      (unionTypes : Option (List SchemaField))
      (intersectionTypes : Option (List SchemaField))
      (nullableType : Option SchemaField)

/-- Scalar attributes of a field. -/
def SchemaField.opts : SchemaField → FieldOpts
  | ⟨o, _, _, _, _, _, _⟩ => o

/-- Kind tag of a field. -/
def SchemaField.ftype : SchemaField → FieldType
  | ⟨_, t, _, _, _, _, _⟩ => t

/-- Array element type of a field. -/
def SchemaField.items : SchemaField → Option SchemaField
  | ⟨_, _, i, _, _, _, _⟩ => i

/-- Object properties of a field. -/
def SchemaField.properties : SchemaField → Option (List (String × SchemaField))
  | ⟨_, _, _, p, _, _, _⟩ => p

/-- Union member types of a field. -/
def SchemaField.unionTypes : SchemaField → Option (List SchemaField)
  | ⟨_, _, _, _, u, _, _⟩ => u

/-- Intersection member types of a field. -/
def SchemaField.intersectionTypes : SchemaField → Option (List SchemaField)
  | ⟨_, _, _, _, _, i, _⟩ => i

/-- Nullable inner type of a field. -/
def SchemaField.nullableType : SchemaField → Option SchemaField
  | ⟨_, _, _, _, _, _, n⟩ => n

/-- Convenience constructor for a field with only scalar attributes. -/
def mkScalarField (t : FieldType) (o : FieldOpts) : SchemaField :=
  ⟨o, t, none, none, none, none, none⟩

/-- A compiled `SchemaForm` as consumed by `generate`: name, version and the
ordered `fields` record (the only parts the generation engine reads). -/
structure Schema where
  name : Option String := none
  version : Option String := none
  fields : List (String × SchemaField) := []

/-- The three randomness modes. -/
inductive Randomness where
  | deterministic | fuzz | random
deriving DecidableEq, Inhabited

/-- State of a `RandomGenerator` instance: the captured seed and mode, plus a
cursor into the ambient-entropy stream (each `Math.random()` call consumes one
entry; the cursor is the only mutable part). -/
structure RandomGenerator where
  seed : ℚ
  randomness : Randomness
  entropyIx : ℕ
deriving DecidableEq, Inhabited

/-- Fractional part `x - Math.floor(x)`. -/
def fract (q : ℚ) : ℚ := q - ⌊q⌋

/-- The `RandomGenerator` constructor: `seed || Math.floor(Math.random() *
1000000)` (a seed of `0` is falsy and replaced by an ambient random seed,
consuming one entropy entry). -/
def mkRandomGenerator (seed : Option ℚ) (randomness : Randomness) (entropy : ℕ → ℚ) : RandomGenerator :=
  match seed with
  | some q => if q = 0 then ⟨(⌊entropy 0 * 1000000⌋ : ℤ), randomness, 1⟩ else ⟨q, randomness, 0⟩
  | none => ⟨(⌊entropy 0 * 1000000⌋ : ℤ), randomness, 1⟩

/-- The value a deterministic-mode draw always returns:
`frac(sin(sin(seed) * 10000) * 10000)` with `sin` abstracted as `sinA`. -/
def detRandom (sinA : ℚ → ℚ) (seed : ℚ) : ℚ :=
  fract (sinA (sinA seed * 10000) * 10000)

/-- One call of the closure `createSeededRandom` returns: the drawn value and
the successor state.  In `deterministic` mode the state is untouched; `fuzz`
and `random` modes consume one ambient entropy entry. -/
def rngStep (sinA : ℚ → ℚ) (entropy : ℕ → ℚ) (g : RandomGenerator) : ℚ × RandomGenerator :=
  match g.randomness with
  | .deterministic => (detRandom sinA g.seed, g)
  | .fuzz =>
      (fract (sinA (sinA g.seed * 10000 + entropy g.entropyIx) * 10000),
       { g with entropyIx := g.entropyIx + 1 })
  | .random => (entropy g.entropyIx, { g with entropyIx := g.entropyIx + 1 })

/-- The sequence of values produced by successive `random()` calls on a
`RandomGenerator`, as a stream indexed by call number.  This is the draw
stream the generation engine consumes. -/
def rngOutputs (sinA : ℚ → ℚ) (entropy : ℕ → ℚ) (g : RandomGenerator) : ℕ → ℚ
  | 0 => (rngStep sinA entropy g).1
  | n + 1 => rngOutputs sinA entropy (rngStep sinA entropy g).2 n

/-- `randomInt(min, max)` from a single draw `x`:
`Math.floor(x * (max - min + 1)) + min`. -/
def randomInt (x : ℚ) (min max : ℚ) : ℚ :=
  ((⌊x * (max - min + 1)⌋ : ℤ) : ℚ) + min

/-- `randomChoice(array)` from a single draw `x`: `array[Math.floor(x *
array.length)]`, `none` when the index is out of range (JS `undefined`). -/
def randomChoice {α : Type} (xs : List α) (x : ℚ) : Option α :=
  let i : ℤ := ⌊x * xs.length⌋
  if i < 0 then none else xs.get? i.toNat

/-- `charset.charAt(i)`: the one-character string at index `i`, or the empty
string when out of range. -/
def jsCharAt (s : String) (i : ℤ) : String :=
  if i < 0 then ""
  else
    match s.toList.get? i.toNat with
    | some c => String.singleton c
    | none => ""

/-- Default charset of `randomString`. -/
def defaultCharset : String :=
  "abcdefghijklmnopqrstuvwxyzABCDEFGHIJKLMNOPQRSTUVWXYZ0123456789"

/-- The loop of `randomString`: `count` iterations each appending
`charset.charAt(Math.floor(random() * charset.length))`. -/
def randomStringGo (r : ℕ → ℚ) (charset : String) : ℕ → ℕ → String × ℕ
  | 0, ix => ("", ix)
  | count + 1, ix =>
      let c := jsCharAt charset ⌊r ix * charset.length⌋
      let rest := randomStringGo r charset count (ix + 1)
      (c ++ rest.1, rest.2)

/-- `randomString(length, charset)` over the draw stream. -/
def randomString (r : ℕ → ℚ) (ix : ℕ) (length : ℚ) (charset : String) : String × ℕ :=
  randomStringGo r charset (jsLoopCount length) ix

/-- `randomWeightedChoice(items)`: totals the weights (a bare literal counts
as weight 1), draws `randomNum = random() * totalWeight`, then returns the
first entry whose own `weight` exceeds `randomNum` — the running loop never
subtracts the weights already passed — and otherwise falls back to a uniform
`randomChoice` over the values, consuming a second draw. -/
def randomWeightedChoice (r : ℕ → ℚ) (ix : ℕ) (items : List EnumVal) : Except GErr Val × ℕ :=
  let choices : List (Val × ℚ) := items.map fun it =>
    match it with
    | .weighted v w => (v, w)
    | .plain v => (v, 1)
  let totalWeight : ℚ := (choices.map Prod.snd).sum
  let randomNum := r ix * totalWeight
  match choices.find? (fun c => randomNum < c.2) with
  | some c => (.ok c.1, ix + 1)
  | none =>
      match randomChoice (choices.map Prod.fst) (r (ix + 1)) with
      | some v => (.ok v, ix + 2)
      | none => (.error (.js "undefined choice"), ix + 2)

/-- The domain and name pools of `randomEmail`. -/
def emailDomains : List String :=
  ["gmail.com", "yahoo.com", "outlook.com", "company.com", "example.org"]

/-- Name pool of `randomEmail`. -/
def emailNames : List String :=
  ["john", "jane", "alice", "bob", "charlie", "diana", "eve", "frank"]

/-- `randomEmail()`: three draws (name, domain, number), interpolated as
`name + number + "@" + domain`. -/
def randomEmail (r : ℕ → ℚ) (ix : ℕ) : Except GErr String × ℕ :=
  match randomChoice emailNames (r ix) with
  | none => (.error (.js "undefined choice"), ix + 1)
  | some name =>
      match randomChoice emailDomains (r (ix + 1)) with
      | none => (.error (.js "undefined choice"), ix + 2)
      | some domain =>
          let number := randomInt (r (ix + 2)) 1 999
          (.ok (name ++ jsNumToString number ++ "@" ++ domain), ix + 3)

/-- Pools of `randomUrl`. -/
def urlProtocols : List String := ["https", "http"]

/-- Domain pool of `randomUrl`. -/
def urlDomains : List String := ["example.com", "test.org", "sample.net", "demo.co"]

/-- Path pool of `randomUrl`. -/
def urlPaths : List String := ["", "/api", "/dashboard", "/users", "/products"]

/-- `randomUrl()`: three draws (protocol, domain, path). -/
def randomUrl (r : ℕ → ℚ) (ix : ℕ) : Except GErr String × ℕ :=
  match randomChoice urlProtocols (r ix) with
  | none => (.error (.js "undefined choice"), ix + 1)
  | some protocol =>
      match randomChoice urlDomains (r (ix + 1)) with
      | none => (.error (.js "undefined choice"), ix + 2)
      | some domain =>
          match randomChoice urlPaths (r (ix + 2)) with
          | none => (.error (.js "undefined choice"), ix + 3)
          | some path => (.ok (protocol ++ "://" ++ domain ++ path), ix + 3)

/-- Hex digits used by `randomUuid`. -/
def hexDigits : String := "0123456789abcdef"

/-- One position of the `randomUuid` loop: dashes at 8/13/18/23, the literal
version nibble '4' at 14, a variant nibble drawn from `randomInt(8, 11)` at
19, and a full random hex digit elsewhere. -/
def uuidCharAt (r : ℕ → ℚ) (i : ℕ) (ix : ℕ) : String × ℕ :=
  if i = 8 || i = 13 || i = 18 || i = 23 then ("-", ix)
  else if i = 14 then ("4", ix)
  else if i = 19 then (jsCharAt hexDigits ⌊randomInt (r ix) 8 11⌋, ix + 1)
  else (jsCharAt hexDigits ⌊randomInt (r ix) 0 15⌋, ix + 1)

/-- The 36-position loop of `randomUuid`, starting at position `i`. -/
def randomUuidGo (r : ℕ → ℚ) : (count : ℕ) → (i : ℕ) → (ix : ℕ) → String × ℕ
  | 0, _, ix => ("", ix)
  | count + 1, i, ix =>
      let c := uuidCharAt r i ix
      let rest := randomUuidGo r count (i + 1) c.2
      (c.1 ++ rest.1, rest.2)

/-- `randomUuid()`. -/
def randomUuid (r : ℕ → ℚ) (ix : ℕ) : String × ℕ :=
  randomUuidGo r 36 0 ix

/-- Milliseconds of `new Date("2020-01-01")`. -/
def epoch2020 : ℚ := 1577836800000

/-- `randomDate(start?, end?)` as a millisecond timestamp: one draw
interpolates between the bounds; absent or **falsy** (epoch-zero) bounds fall
back to 2020-01-01 and `Date.now()` (`||` semantics). -/
def randomDate (x : ℚ) (start finish : Option ℚ) (now : ℚ) : ℚ :=
  let startTime := jsOrNum start epoch2020
  let endTime := jsOrNum finish now
  startTime + x * (endTime - startTime)

/-- `randomBoolean()`: `random() < 0.5`. -/
def randomBoolean (x : ℚ) : Bool := decide (x < 1/2)

/-- Whether the first list starts with the second. -/
def listStartsWith : List Char → List Char → Bool
  | _, [] => true
  | [], _ :: _ => false
  | a :: as, b :: bs => a == b && listStartsWith as bs

/-- JS `s.includes(sub)` on character lists. -/
def containsSub : List Char → List Char → Bool
  | [], sub => sub.isEmpty
  | c :: cs, sub => listStartsWith (c :: cs) sub || containsSub cs sub

/-- Word characters of the regex class `\w`. -/
def isWordChar (c : Char) : Bool := c.isAlphanum || c = '_'

/-- Attempt to match the template regex `\{\{\s*(\w+)\s*\}\}` at the head of
the character list, returning the captured key and the remainder after the
match. -/
def parseTemplateKey (cs : List Char) : Option (String × List Char) :=
  match cs with
  | c1 :: c2 :: rest =>
      if c1 = lbrace && c2 = lbrace then
        let rest1 := rest.dropWhile isWsChar
        let key := rest1.takeWhile isWordChar
        let rest2 := rest1.dropWhile isWordChar
        if key.isEmpty then none
        else
          match rest2.dropWhile isWsChar with
          | d1 :: d2 :: rest4 =>
              if d1 = rbrace && d2 = rbrace then some (String.mk key, rest4) else none
          | _ => none
      else none
  | _ => none

/-- The global-replace scan of `interpolateTemplate`: at each position try the
template pattern; on a match emit the replacement and continue after it, else
emit the character and move one position right (exactly the leftmost-restart
behaviour of `String.replace` with a global regex).  The fuel is the character
count, sufficient since every step consumes at least one character. -/
def interpolateGo (lookup : String → String) : ℕ → List Char → String
  | _, [] => ""
  | 0, cs => String.mk cs
  | fuel + 1, c :: cs =>
      match parseTemplateKey (c :: cs) with
      | some (key, rest) => lookup key ++ interpolateGo lookup fuel rest
      | none => String.singleton c ++ interpolateGo lookup fuel cs

/-- The replacement value of one template key: `String(currentData[key])`,
else `String(globalContext[key])`, else the empty string.  `sfuel` bounds the
depth of the `String(x)` rendering. -/
def templateLookup (sfuel : ℕ) (g cur : JData) (key : String) : String :=
  match objGet cur key with
  | some v => jsStringOf sfuel v
  | none =>
      match objGet g key with
      | some v => jsStringOf sfuel v
      | none => ""

/-- `interpolateTemplate(template, globalContext, currentData)`. -/
def interpolateTemplate (sfuel : ℕ) (template : String) (g cur : JData) : String :=
  interpolateGo (templateLookup sfuel g cur) template.toList.length template.toList

/-- `generatePatternString(pattern)`: a coarse shape check, not a regex
engine — `[A-Z]` anywhere gives 8 uppercase letters, else `[0-9]` gives 6
digits, else 10 default-charset characters. -/
def generatePatternString (r : ℕ → ℚ) (ix : ℕ) (pattern : String) : String × ℕ :=
  if containsSub pattern.toList "[A-Z]".toList then
    randomString r ix 8 "ABCDEFGHIJKLMNOPQRSTUVWXYZ"
  else if containsSub pattern.toList "[0-9]".toList then
    randomString r ix 6 "0123456789"
  else randomString r ix 10 defaultCharset

/-- The word dictionary of free string generation. -/
def wordsList : List String :=
  ["lorem", "ipsum", "dolor", "sit", "amet", "consectetur", "adipiscing",
   "elit", "sed", "do", "eiusmod", "tempor", "incididunt", "ut", "labore",
   "et", "dolore", "magna", "aliqua", "enim", "ad", "minim", "veniam",
   "quis", "nostrud"]

/-- The word-joining loop of `generateString`: while the result is shorter
than `length`, draw a word; append it (space-separated) if it fits within
`length` counting a joining space, else stop.  The fuel models the loop
bound; since every appended word lengthens the result by at least two
characters, `jsLoopCount length + 1` iterations always suffice. -/
def generateStringLoopGo (r : ℕ → ℚ) (lengthQ : ℚ) : ℕ → String → ℕ → Except GErr String × ℕ
  | 0, result, ix => (.ok result, ix)
  | fuel + 1, result, ix =>
      if (result.length : ℚ) < lengthQ then
        match randomChoice wordsList (r ix) with
        | none => (.error (.js "undefined word"), ix + 1)
        | some word =>
            if ((result.length : ℚ) + word.length + 1) ≤ lengthQ then
              generateStringLoopGo r lengthQ fuel
                (result ++ (if result = "" then "" else " ") ++ word) (ix + 1)
            else (.ok result, ix + 1)
      else (.ok result, ix)

/-- `generateString` without the template branch: pattern branch, else the
drawn length in `[min || 1, max || 50]`, the word-joining loop, and the
`result || randomString(length)` fallback for an empty result. -/
def generateStringPlain (r : ℕ → ℚ) (field : SchemaField) (ix : ℕ) : Except GErr String × ℕ :=
  match field.opts.pattern with
  | some p =>
      if p = "" then generateStringFree r field ix
      else
        let s := generatePatternString r ix p
        (.ok s.1, s.2)
  | none => generateStringFree r field ix
where
  /-- The free branch: drawn length, word loop, fallback. -/
  generateStringFree (r : ℕ → ℚ) (field : SchemaField) (ix : ℕ) : Except GErr String × ℕ :=
    let minLength := jsOrNum field.opts.min 1
    let maxLength := jsOrNum field.opts.max 50
    let lengthQ := randomInt (r ix) minLength maxLength
    match generateStringLoopGo r lengthQ (jsLoopCount lengthQ + 1) "" (ix + 1) with
    | (.ok result, ix') =>
        if result = "" then
          let s := randomString r ix' lengthQ defaultCharset
          (.ok s.1, s.2)
        else (.ok result, ix')
    | e => e

/-- `generateString(field, globalContext, currentData)`: a truthy template
interpolates (consuming no draw), else the plain path runs. -/
def generateString (sfuel : ℕ) (r : ℕ → ℚ) (field : SchemaField) (g cur : JData) (ix : ℕ) : Except GErr String × ℕ :=
  match field.opts.template with
  | some t =>
      if t = "" then generateStringPlain r field ix
      else (.ok (interpolateTemplate sfuel t g cur), ix)
  | none => generateStringPlain r field ix

/-- `generateNumber(field)`: bounds `min || 0` and `max || 1000`; an integer
range draws `randomInt`, otherwise a uniform value in the range.  Exactly one
draw either way. -/
def generateNumber (x : ℚ) (field : SchemaField) : ℚ :=
  let mn := field.opts.min.getD 0
  let mx := jsOrNum field.opts.max 1000
  if jsIsInteger mn && jsIsInteger mx then randomInt x mn mx
  else mn + x * (mx - mn)

/-- Injective stand-in for `Date.prototype.toISOString` (the exact ISO-8601
text is abstracted; no claim depends on it). -/
def isoDateTime (ms : ℚ) : String := "iso8601:" ++ jsNumToString ms

/-- Injective stand-in for the date part `toISOString().split("T")[0]`. -/
def isoDateOnly (ms : ℚ) : String := "isodate:" ++ jsNumToString ms

/-- Configuration of the mock generator (only the options the generation
paths read; `none` is an absent option). -/
structure MockGeneratorOptions where
  seed : Option ℚ := none
  dateRangeStart : Option ℚ := none
  dateRangeEnd : Option ℚ := none
  simulateError : Option Bool := none
  errorProbability : Option ℚ := none
  context : Option JData := none
  metadata : Option JData := none
  modelInfo : Option String := none
  latencyMs : Option ℚ := none
  randomness : Option Randomness := none
  maxTokens : Option ℚ := none
  roles : Option (List String) := none
  logTrace : Option Bool := none
  rateLimit : Option ℚ := none
  rateLimitIntervalMs : Option ℚ := none
  quota : Option ℚ := none
  quotaUsed : Option ℚ := none
  hallucinate : Option Bool := none
  hallucinationProbability : Option ℚ := none
  streamChunkSize : Option ℚ := none
  streamDelayMs : Option ℚ := none

/-- A plugin's `onGenerateField` hook: receives the field, global context,
current data and the rng (modelled as stream plus cursor), and returns an
optional override value together with the advanced cursor. -/
abbrev Plugin := SchemaField → JData → JData → (ℕ → ℚ) → ℕ → Option Val × ℕ

/-- Immutable per-instance environment of the generation engine: the draw
stream of the instance's `RandomGenerator`, the captured plugin snapshot, the
registered-schema registry, the options, and the wall-clock instant of the
current call (`Date.now()`; the source reads the clock a few milliseconds
apart within one call, abstracted to a single instant). -/
structure GenEnv where
  r : ℕ → ℚ
  plugins : List Plugin := []
  registered : List (String × Schema) := []
  options : MockGeneratorOptions := {}
  now : ℚ := 0

/-- The global context `options.context || {}`. -/
def ctxOf (env : GenEnv) : JData := env.options.context.getD []

/-- Run the plugin hooks in registration order; the first defined result
short-circuits (every hook that runs may consume draws). -/
def runPlugins (env : GenEnv) (field : SchemaField) (cur : JData) : List Plugin → ℕ → Option Val × ℕ
  | [], ix => (none, ix)
  | p :: rest, ix =>
      match p field (ctxOf env) cur env.r ix with
      | (some v, ix') => (some v, ix')
      | (none, ix') => runPlugins env field cur rest ix'

/-- `generateDate(field)`: one draw interpolated in the configured date range,
rendered as date-time or date-only per `format`. -/
def generateDate (env : GenEnv) (field : SchemaField) (ix : ℕ) : Val × ℕ :=
  let ms := randomDate (env.r ix) env.options.dateRangeStart env.options.dateRangeEnd env.now
  match field.opts.format with
  | some .dateTime => (.vstr (isoDateTime ms), ix + 1)
  | _ => (.vstr (isoDateOnly ms), ix + 1)

/-- `validateField`: non-recursive structural checks of one (top-level)
field.  Nested fields are *not* validated — the source's `validateField` does
not recurse. -/
def validateField (name : String) (f : SchemaField) : Except SynError Unit :=
  if f.ftype = .farray && f.items.isNone then
    .error ⟨"Array field \"" ++ name ++ "\" must have items definition", "MISSING_ITEMS"⟩
  else if f.ftype = .fobject && f.properties.isNone then
    .error ⟨"Object field \"" ++ name ++ "\" must have properties definition", "MISSING_PROPERTIES"⟩
  else if f.ftype = .fenum && (f.opts.enumVs.getD []).isEmpty then
    .error ⟨"Enum field \"" ++ name ++ "\" must have enum values", "MISSING_ENUM_VALUES"⟩
  else
    match f.opts.min, f.opts.max with
    | some mn, some mx =>
        if mn > mx then
          .error ⟨"Field \"" ++ name ++ "\": min (" ++ jsNumToString mn
            ++ ") cannot be greater than max (" ++ jsNumToString mx ++ ")", "INVALID_MIN_MAX"⟩
        else .ok ()
    | _, _ => .ok ()

/-- Validate every top-level field in order. -/
def validateFieldsGo : List (String × SchemaField) → Except SynError Unit
  | [] => .ok ()
  | (n, f) :: rest =>
      match validateField n f with
      | .ok _ => validateFieldsGo rest
      | .error e => .error e

/-- `validateSchema`: non-empty `fields`, then per-field checks. -/
def validateSchema (schema : Schema) : Except SynError Unit :=
  if schema.fields.isEmpty then
    .error ⟨"Invalid schema: fields definition is missing or empty.", "INVALID_SCHEMA"⟩
  else validateFieldsGo schema.fields

/-- `simulateHallucination(field)`: a type-appropriate noise value (note the
boolean case uses `random() > 0.5` and the array case recurses into
`items`). -/
def simulateHallucination (env : GenEnv) : SchemaField → ℕ → Except GErr Val × ℕ
  | ⟨_, t, items, _, _, _, _⟩, ix =>
      match t with
      | .fstring =>
          let s := randomString env.r ix 12 "!@#$%^&*()_+1234567890abcdef"
          (.ok (.vstr s.1), s.2)
      | .fnumber => (.ok (.vnum (randomInt (env.r ix) 10000 99999)), ix + 1)
      | .fboolean => (.ok (.vbool (decide ((1 : ℚ)/2 < env.r ix))), ix + 1)
      | .farray =>
          match items with
          | some it =>
              match simulateHallucination env it ix with
              | (.ok v, ix') => (.ok (.varr [v]), ix')
              | e => e
          | none => (.error (.js "cannot read items of undefined"), ix)
      | .fobject => (.ok (.vobj [("hallucinated", .vbool true)]), ix)
      | .fenum => (.ok (.vstr "???"), ix)
      | _ => (.ok .vnull, ix)

/-- Lift a string-producing step to a value-producing one. -/
def strRes : Except GErr String × ℕ → Except GErr Val × ℕ
  | (.ok s, ix) => (.ok (.vstr s), ix)
  | (.error e, ix) => (.error e, ix)

/-- Work items of the generation engine: `gfield` is `generateFieldValue`,
`gobject` is the field loop of `generateObjectData` (carrying the shared
`data`/`currentData` object), `garray` is the item loop of `generateArray`,
and `ginter` is the `reduce` of the intersection case. -/
inductive GJob where
  | gfield : SchemaField → JData → GJob
  | gobject : List (String × SchemaField) → JData → GJob
  | garray : Option SchemaField → ℕ → JData → List Val → GJob
  | ginter : List SchemaField → JData → Val → GJob

/-- The error-marker value written by a triggered per-field `simulateError`. -/
def simErrVal (field : SchemaField) : Val :=
  .vobj [("error", .vstr (field.opts.errorType.getD "SimulatedFieldError"))]

/-- The recursive generation engine.  Fuel decreases on every recursive call
and models the JS call stack / loop budget (exhaustion is a plain JS error);
each theorem either holds for every fuel or supplies ample fuel. -/
def genStep (env : GenEnv) : ℕ → GJob → ℕ → Except GErr Val × ℕ
  | _, .gobject [] cur, ix => (.ok (.vobj cur), ix)
  | _, .garray _ 0 _ acc, ix => (.ok (.varr acc), ix)
  | _, .ginter [] _ acc, ix => (.ok acc, ix)
  | 0, _, ix => (.error (.js "Maximum call stack size exceeded"), ix)
  | fuel + 1, .gfield field cur, ix =>
      match runPlugins env field cur env.plugins ix with
      | (some v, ixp) => (.ok v, ixp)
      | (none, ix0) =>
          match field.opts.generateFn with
          | some fn =>
              let p := fn (ctxOf env) cur env.r ix0
              (.ok p.1, p.2)
          | none =>
              match field.ftype with
              | .fstring => strRes (generateString fuel env.r field (ctxOf env) cur ix0)
              | .fnumber => (.ok (.vnum (generateNumber (env.r ix0) field)), ix0 + 1)
              | .fboolean => (.ok (.vbool (randomBoolean (env.r ix0))), ix0 + 1)
              | .farray =>
                  let minL := field.opts.min.getD 1
                  let maxL := field.opts.max.getD 5
                  if minL = 0 && maxL = 0 then (.ok (.varr []), ix0)
                  else
                    let count := jsLoopCount (randomInt (env.r ix0) minL maxL)
                    genStep env fuel (.garray field.items count cur []) (ix0 + 1)
              | .fobject =>
                  match field.properties with
                  | some ps => genStep env fuel (.gobject ps []) ix0
                  | none => (.error (.js "cannot read properties of undefined"), ix0)
              | .fenum =>
                  match field.opts.enumVs with
                  | some items => randomWeightedChoice env.r ix0 items
                  | none => (.error (.js "cannot map undefined"), ix0)
              | .fuuid =>
                  let u := randomUuid env.r ix0
                  (.ok (.vstr u.1), u.2)
              | .femail => strRes (randomEmail env.r ix0)
              | .furl => strRes (randomUrl env.r ix0)
              | .fdate =>
                  let d := generateDate env field ix0
                  (.ok d.1, d.2)
              | .funion =>
                  match field.unionTypes with
                  | some ts =>
                      match randomChoice ts (env.r ix0) with
                      | some t => genStep env fuel (.gfield t cur) (ix0 + 1)
                      | none => (.error (.js "undefined union member"), ix0 + 1)
                  | none => (.error (.js "cannot choose from undefined"), ix0 + 1)
              | .fintersection =>
                  match field.intersectionTypes with
                  | some ts => genStep env fuel (.ginter ts cur (.vobj [])) ix0
                  | none => (.error (.js "cannot reduce undefined"), ix0)
              | .fnullable =>
                  if randomBoolean (env.r ix0) then
                    match field.nullableType with
                    | some t => genStep env fuel (.gfield t cur) (ix0 + 1)
                    | none => (.error (.js "undefined nullable type"), ix0 + 1)
                  else (.ok .vnull, ix0 + 1)
              | .freference =>
                  match field.opts.refName with
                  | some nm =>
                      match env.registered.find? (fun p => p.1 = nm) with
                      | some p => genStep env fuel (.gobject p.2.fields []) ix0
                      | none =>
                          (.error (.syn ⟨"Reference to unregistered schema \"" ++ nm ++ "\"",
                            "UNREGISTERED_SCHEMA_REFERENCE"⟩), ix0)
                  | none =>
                      (.error (.syn ⟨"Reference to unregistered schema \"undefined\"",
                        "UNREGISTERED_SCHEMA_REFERENCE"⟩), ix0)
  | fuel + 1, .gobject ((name, field) :: rest) cur, ix =>
      let simChk : Bool × ℕ :=
        if field.opts.simulateError.getD false then
          (decide (env.r ix < 1/2), ix + 1)
        else (false, ix)
      if simChk.1 then
        genStep env fuel (.gobject rest (objSet cur name (simErrVal field))) simChk.2
      else
        let ix1 := simChk.2
        let isRequired : Bool := !(decide (field.opts.required = some false))
        let prob := field.opts.probability.getD 1
        if !isRequired && decide (prob = 0) then
          genStep env fuel (.gobject rest cur) ix1
        else
          let incP : Bool × ℕ :=
            if isRequired then (true, ix1) else (decide (env.r ix1 < prob), ix1 + 1)
          let shouldInclude :=
            incP.1 && (match field.opts.condition with
                       | none => true
                       | some c => c cur (ctxOf env))
          if shouldInclude then
            match genStep env fuel (.gfield field cur) incP.2 with
            | (.error e, ix2) => (.error e, ix2)
            | (.ok v, ix2) =>
                if env.options.hallucinate.getD false then
                  if env.r ix2 < env.options.hallucinationProbability.getD (1/10) then
                    match simulateHallucination env field (ix2 + 1) with
                    | (.ok v2, ix3) => genStep env fuel (.gobject rest (objSet cur name v2)) ix3
                    | (.error e, ix3) => (.error e, ix3)
                  else genStep env fuel (.gobject rest (objSet cur name v)) (ix2 + 1)
                else genStep env fuel (.gobject rest (objSet cur name v)) ix2
          else genStep env fuel (.gobject rest cur) incP.2
  | fuel + 1, .garray itemsOpt (count + 1) cur acc, ix =>
      match itemsOpt with
      | none => (.error (.js "cannot generate items of undefined"), ix)
      | some item =>
          match genStep env fuel (.gfield item cur) ix with
          | (.ok v, ixn) => genStep env fuel (.garray itemsOpt count cur (acc ++ [v])) ixn
          | (.error e, ixn) => (.error e, ixn)
  | fuel + 1, .ginter (t :: ts) cur acc, ix =>
      match genStep env fuel (.gfield t cur) ix with
      | (.error e, ixn) => (.error e, ixn)
      | (.ok v, ixn) =>
          let merged : Val :=
            match v with
            | .vobj _ => Val.vobj (objMergeInto (spreadKVs acc) (spreadKVs v))
            | .varr _ => Val.vobj (objMergeInto (spreadKVs acc) (spreadKVs v))
            | _ => v
          genStep env fuel (.ginter ts cur merged) ixn

/-- `generateFieldValue(field, globalContext, currentData)`. -/
def generateFieldValue (env : GenEnv) (fuel : ℕ) (field : SchemaField) (cur : JData) (ix : ℕ) : Except GErr Val × ℕ :=
  genStep env fuel (.gfield field cur) ix

/-- `generateObjectData(fields, globalContext, currentData)`; the result is
always a `vobj` on success. -/
def generateObjectData (env : GenEnv) (fuel : ℕ) (fields : List (String × SchemaField)) (cur : JData) (ix : ℕ) : Except GErr Val × ℕ :=
  genStep env fuel (.gobject fields cur) ix

/-- `streamTokens(text, maxTokens?, stopSequence?)`: whitespace-split tokens,
truncation at a stop token, then `length`-reasoned truncation when a truthy
`maxTokens` is exceeded. -/
def streamTokens (text : String) (maxTokens : Option ℚ) (stopSeq : Option Val) : List String × String :=
  let tokens := splitWs text
  let tokens :=
    match stopSeq with
    | some sv =>
        if valTruthy sv then
          match tokens.findIdx? (fun t => match sv with | .vstr s2 => t = s2 | _ => false) with
          | some i => tokens.take i
          | none => tokens
        else tokens
    | none => tokens
  match maxTokens with
  | some m =>
      if !(decide (m = 0)) && decide ((tokens.length : ℚ) > m) then
        (tokens.take (Int.toNat ⌊m⌋), "length")
      else (tokens, "stop")
  | none => (tokens, "stop")

/-- Mutable per-instance state across `generate` calls: the rate-limit
counter and window start, the (mutated-in-place) `options.quotaUsed`, and the
cursor of the instance's draw stream. -/
structure GenState where
  requestCount : ℚ
  lastReset : ℚ
  quotaUsed : Option ℚ
  ix : ℕ
deriving DecidableEq

/-- `handleRateLimiting(now)`: only active when both `rateLimit` and
`rateLimitIntervalMs` are truthy; resets the counter when more than the
interval has elapsed since the window start, increments, and fails with
`RATE_LIMIT` when the counter exceeds the limit (the increment persists). -/
def handleRateLimiting (options : MockGeneratorOptions) (st : GenState) (now : ℚ) : Except SynError Unit × GenState :=
  match options.rateLimit, options.rateLimitIntervalMs with
  | some limit, some interval =>
      if limit = 0 ∨ interval = 0 then (.ok (), st)
      else
        let st1 := if now - st.lastReset > interval then { st with requestCount := 0, lastReset := now } else st
        let st2 := { st1 with requestCount := st1.requestCount + 1 }
        if st2.requestCount > limit then (.error ⟨"Rate limit exceeded", "RATE_LIMIT"⟩, st2)
        else (.ok (), st2)
  | _, _ => (.ok (), st)

/-- `handleQuota()`: active when both `quota` and `quotaUsed` are present
(zero included — the source tests `!== undefined`); at or above the quota it
fails without incrementing, else it increments `options.quotaUsed`. -/
def handleQuota (options : MockGeneratorOptions) (st : GenState) : Except SynError Unit × GenState :=
  match options.quota, st.quotaUsed with
  | some q, some used =>
      if used ≥ q then (.error ⟨"Quota exceeded", "QUOTA_EXCEEDED"⟩, st)
      else (.ok (), { st with quotaUsed := some (used + 1) })
  | _, _ => (.ok (), st)

/-- The simulated global fault kinds. -/
def errorTypesList : List String :=
  ["TIMEOUT", "MODEL_UNAVAILABLE", "MALFORMED_REQUEST", "RATE_LIMIT", "INTERNAL_SERVER_ERROR"]

/-- `handleGlobalErrorSimulation()`: when `simulateError` is truthy, trigger
either because `errorProbability ?? 0.1` equals 1 (no draw, by `||`
short-circuit) or because a draw falls below it; a triggered fault consumes a
second draw to choose the fault kind uniformly. -/
def handleGlobalErrorSimulation (env : GenEnv) (ix : ℕ) : Except SynError Unit × ℕ :=
  if env.options.simulateError.getD false then
    let p := env.options.errorProbability.getD (1/10)
    let trig : Bool × ℕ := if p = 1 then (true, ix) else (decide (env.r ix < p), ix + 1)
    if trig.1 then
      match randomChoice errorTypesList (env.r trig.2) with
      | some code => (.error ⟨"Simulated global error for testing.", code⟩, trig.2 + 1)
      | none => (.error ⟨"Simulated global error for testing.", "undefined"⟩, trig.2 + 1)
    else (.ok (), trig.2)
  else (.ok (), ix)

/-- Metadata of a response.  `generatedAt` keeps the clock instant (the ISO
rendering is injective in it); `extra` carries `options.metadata` verbatim
(its spread into the literal, which could shadow the four fields written
before it, is kept separate here — no claim involves such shadowing);
`quotaUsed` reports the live (post-increment) counter as the source does. -/
structure RespMetadata where
  generatedAt : ℚ
  generator : String
  version : String
  seed : Option ℚ
  extra : JData
  tokenUsage : ℕ
  modelInfo : String
  latencyMs : ℚ
  roles : Option (List String)
  log : Option (ℚ × String)
  rateLimit : Option ℚ
  quota : Option ℚ
  quotaUsed : Option ℚ
  finishReason : Option String

/-- A `MockResponse` envelope. -/
structure MockResponse where
  schema : Schema
  data : Val
  metadata : RespMetadata
  tokens : Option (List String)
  finishReason : Option String

/-- Key/value list of a value known to be an object (`generateObjectData`
always returns one — see `generateObjectData_shape`). -/
def asObjKVs : Val → JData
  | .vobj kvs => kvs
  | _ => []

/-- `MockGenerator.generate(schema)` for one call at clock instant `env.now`:
validation, rate limiting, quota, global error simulation, recursive
generation, post-hoc token counting against `maxTokens`, role wrapping,
token/finish-reason extraction from the first string field, and metadata
assembly.  `SyntexError`s pass through; any other error is rewrapped as
`GENERATION_ERROR` naming the schema. -/
def mockGenCall (env : GenEnv) (fuel : ℕ) (schema : Schema) (st : GenState) : Except SynError MockResponse × GenState :=
  match validateSchema schema with
  | .error e => (.error e, st)
  | .ok _ =>
  match handleRateLimiting env.options st env.now with
  | (.error e, st1) => (.error e, st1)
  | (.ok _, st1) =>
  match handleQuota env.options st1 with
  | (.error e, st2) => (.error e, st2)
  | (.ok _, st2) =>
  match handleGlobalErrorSimulation env st2.ix with
  | (.error e, ixe) => (.error e, { st2 with ix := ixe })
  | (.ok _, ix0) =>
  match generateObjectData env fuel schema.fields [] ix0 with
  | (.error (.syn e), ixg) => (.error e, { st2 with ix := ixg })
  | (.error (.js msg), ixg) =>
      (.error ⟨"Failed to generate mock data for schema \""
        ++ schema.name.getD "unnamed" ++ "\": " ++ msg, "GENERATION_ERROR"⟩,
       { st2 with ix := ixg })
  | (.ok v, ixg) =>
      let data := asObjKVs v
      let tokenCount := (jsonStringify (fuel + 1) (.vobj data)).length
      if (match env.options.maxTokens with
          | some m => !(decide (m = 0)) && decide ((tokenCount : ℚ) > m)
          | none => false) then
        (.error ⟨"Max token limit exceeded (" ++ toString tokenCount ++ "/"
          ++ jsNumToString (env.options.maxTokens.getD 0) ++ ")", "MAX_TOKEN_LIMIT"⟩,
         { st2 with ix := ixg })
      else
        let roles := env.options.roles.getD []
        let dataWithRoles : Val :=
          if roles.isEmpty then Val.vobj data
          else Val.vobj (roles.foldl (fun acc role => objSet acc role (Val.vobj data)) [])
        -- mainData: the assistant copy when an assistant role exists, else the
        -- ungrouped data; either way the same key/value list.
        let firstStr : Option String :=
          data.findSome? (fun kv => match kv.2 with | .vstr s => some s | _ => none)
        let tf : Option (List String × String) :=
          match firstStr with
          | some s =>
              some (streamTokens s env.options.maxTokens
                (match env.options.metadata with
                 | some md => objGet md "stopSequence"
                 | none => none))
          | none => none
        let latP : ℚ × ℕ :=
          match env.options.latencyMs with
          | some l => (l, ixg)
          | none => (randomInt (env.r ixg) 50 500, ixg + 1)
        let logP : Option (ℚ × String) × ℕ :=
          if env.options.logTrace.getD false then
            let u := randomUuid env.r latP.2
            (some (env.now, u.1), u.2)
          else (none, latP.2)
        let md : RespMetadata :=
          { generatedAt := env.now
            generator := "Syntex"
            version := schema.version.getD "1.0.0"
            seed := env.options.seed
            extra := env.options.metadata.getD []
            tokenUsage := tokenCount
            modelInfo := env.options.modelInfo.getD "Syntex-llm"
            latencyMs := latP.1
            roles := env.options.roles
            log := logP.1
            rateLimit := env.options.rateLimit
            quota := env.options.quota
            quotaUsed := st2.quotaUsed
            finishReason := tf.map Prod.snd }
        (.ok { schema := schema, data := dataWithRoles, metadata := md,
               tokens := tf.map Prod.fst, finishReason := tf.map Prod.snd },
         { st2 with ix := logP.2 })

/-- A sequence of `generate` calls on one instance, each at its own clock
instant, threading the mutable state. -/
def runCalls (envBase : GenEnv) (fuel : ℕ) : GenState → List (Schema × ℚ) → List (Except SynError MockResponse) × GenState
  | st, [] => ([], st)
  | st, (schema, now) :: rest =>
      let p := mockGenCall { envBase with now := now } fuel schema st
      let q := runCalls envBase fuel p.2 rest
      (p.1 :: q.1, q.2)

/-- The `MockGenerator` constructor: builds the instance's `RandomGenerator`
(consuming ambient entropy when the seed is falsy), captures the plugin
snapshot and an empty registry, and initialises the rate/quota state with
`lastReset = Date.now()`. -/
def mkMockGenerator (sinA : ℚ → ℚ) (entropy : ℕ → ℚ) (options : MockGeneratorOptions)
    (plugins : List Plugin) (registered : List (String × Schema)) (constructedAt : ℚ) :
    GenEnv × GenState :=
  let g0 := mkRandomGenerator options.seed (options.randomness.getD .random) entropy
  ({ r := rngOutputs sinA entropy g0, plugins := plugins, registered := registered,
     options := options, now := constructedAt },
   { requestCount := 0, lastReset := constructedAt, quotaUsed := options.quotaUsed, ix := 0 })

/-- One field of `streamGenerate`'s inner loop: the inclusion draw/condition
and hallucination exactly as in one-shot generation, but **no** per-field
`simulateError` check and **no** zero-probability short-circuit; `none` means
the field was excluded. -/
def streamFieldStep (env : GenEnv) (fuel : ℕ) (field : SchemaField) (fullData : JData) (ix : ℕ) : Except GErr (Option Val) × ℕ :=
  let isRequired : Bool := !(decide (field.opts.required = some false))
  let prob := field.opts.probability.getD 1
  let incP : Bool × ℕ := if isRequired then (true, ix) else (decide (env.r ix < prob), ix + 1)
  let shouldInclude :=
    incP.1 && (match field.opts.condition with
               | none => true
               | some c => c fullData (ctxOf env))
  if shouldInclude then
    match genStep env fuel (.gfield field fullData) incP.2 with
    | (.error e, ix2) => (.error e, ix2)
    | (.ok v, ix2) =>
        if env.options.hallucinate.getD false then
          if env.r ix2 < env.options.hallucinationProbability.getD (1/10) then
            match simulateHallucination env field (ix2 + 1) with
            | (.ok v2, ix3) => (.ok (some v2), ix3)
            | (.error e, ix3) => (.error e, ix3)
          else (.ok (some v), ix2 + 1)
        else (.ok (some v), ix2)
  else (.ok none, incP.2)

/-- The fields of one stream chunk, updating the chunk object and the shared
`fullData` in step.  Fuel accounting matches the one-shot field fold, so the
two traversals can be compared under one budget. -/
def streamChunkGo (env : GenEnv) : ℕ → List (String × SchemaField) → JData → JData → ℕ → Except GErr (JData × JData) × ℕ
  | _, [], chunk, full, ix => (.ok (chunk, full), ix)
  | 0, _ :: _, _, _, ix => (.error (.js "Maximum call stack size exceeded"), ix)
  | fuel + 1, (name, field) :: rest, chunk, full, ix =>
      match streamFieldStep env fuel field full ix with
      | (.error e, ixn) => (.error e, ixn)
      | (.ok none, ixn) => streamChunkGo env fuel rest chunk full ixn
      | (.ok (some v), ixn) =>
          streamChunkGo env fuel rest (objSet chunk name v) (objSet full name v) ixn

/-- The `while` loop of `streamGenerate`: at each iteration, abort check,
then one chunk of up to `chunkSz` fields; `steps` bounds the number of
iterations (a zero `chunkSz` makes no progress, modelling the JS hang). -/
def streamWhileGo (env : GenEnv) (chunkSz : ℕ) (abort : ℕ → Bool) : ℕ → ℕ → ℕ → List (String × SchemaField) → JData → ℕ → Except GErr (List JData × JData) × ℕ
  | _, _, _, [], full, ix => (.ok ([], full), ix)
  | 0, _, _, _ :: _, _, ix => (.error (.js "loop budget exceeded"), ix)
  | steps + 1, chunkIdx, fuel, remaining, full, ix =>
      if abort chunkIdx then (.error (.syn ⟨"Stream aborted", "STREAM_ABORTED"⟩), ix)
      else
        let taken := remaining.take chunkSz
        match streamChunkGo env fuel taken [] full ix with
        | (.error e, ixn) => (.error e, ixn)
        | (.ok (chunk, fullNext), ixn) =>
            match streamWhileGo env chunkSz abort steps (chunkIdx + 1) (fuel - taken.length)
                (remaining.drop chunkSz) fullNext ixn with
            | (.ok (chunks, ffull), ix2) => (.ok (chunk :: chunks, ffull), ix2)
            | (.error e, ix2) => (.error e, ix2)

/-- `streamGenerate(schema, chunkSize?, delayMs?)` projected to its
observable data: validation, then the chunked field traversal sharing one
`fullData`; the result is the chunk list and the final `fullData` (delays
have no data effect and are dropped; `abort` gives the abort-signal state at
the start of each loop iteration). -/
def streamGenerate (env : GenEnv) (fuel steps : ℕ) (schema : Schema) (chunkSize : Option ℚ) (abort : ℕ → Bool) (ix : ℕ) : Except GErr (List JData × JData) × ℕ :=
  match validateSchema schema with
  | .error e => (.error (.syn e), ix)
  | .ok _ =>
      let chunkSz := jsLoopCount ((chunkSize.orElse (fun _ => env.options.streamChunkSize)).getD 1)
      streamWhileGo env chunkSz abort steps 0 fuel schema.fields [] ix

/-- Modelled from the spec: `weightedChoice` as cumulative-weight selection —
a single draw `r` in `[0, totalWeight)` picks the first entry whose cumulative
weight prefix exceeds `r` (equivalently, subtract each passed weight from the
draw), falling back to a uniform choice only if no candidate was selected. -/
def cumulativeWeightedChoice (r : ℕ → ℚ) (ix : ℕ) (items : List EnumVal) : Except GErr Val × ℕ :=
  let choices : List (Val × ℚ) := items.map fun it =>
    match it with
    | .weighted v w => (v, w)
    | .plain v => (v, 1)
  let totalWeight : ℚ := (choices.map Prod.snd).sum
  match cumFind choices (r ix * totalWeight) with
  | some v => (.ok v, ix + 1)
  | none =>
      match randomChoice (choices.map Prod.fst) (r (ix + 1)) with
      | some v => (.ok v, ix + 2)
      | none => (.error (.js "undefined choice"), ix + 2)
where
  /-- First entry whose cumulative prefix exceeds the (decremented) draw. -/
  cumFind : List (Val × ℚ) → ℚ → Option Val
    | [], _ => none
    | (v, w) :: rest, x => if x < w then some v else cumFind rest (x - w)

/-- The weighted enum list `[a: weight 3, b: weight 1]` of the C1 analysis. -/
def c1items : List EnumVal :=
  [EnumVal.weighted (Val.vstr "a") 3, EnumVal.weighted (Val.vstr "b") 1]

/-- Draw stream for C1: first draw 7/8 (so `randomNum = 3.5` of total 4),
second draw 0. -/
def c1r : ℕ → ℚ := fun n => if n = 0 then 7/8 else 0

/-- C1: with entries `(a, weight 3), (b, weight 1)` and a first draw of `7/8`
(`randomNum = 3.5` out of `totalWeight = 4`, so no floating-point drift is
involved), the source's `randomWeightedChoice` finds no entry — its loop
compares the draw against each *individual* weight without accumulating — and
falls back to the uniform choice, returning `a` on a second draw of `0`;
cumulative-weight selection as the specification describes would return `b`
from the single draw. -/
theorem C1_randomWeightedChoice_not_cumulative :
    randomWeightedChoice c1r 0 c1items = (.ok (Val.vstr "a"), 2) ∧
    cumulativeWeightedChoice c1r 0 c1items = (.ok (Val.vstr "b"), 1) ∧
    (0 : ℚ) ≤ c1r 0 * 4 ∧ c1r 0 * 4 < 4 := by
  refine ⟨by with_unfolding_all rfl, by with_unfolding_all rfl, ?_, ?_⟩ <;> norm_num [c1r]

/-- One deterministic-mode `random()` call: the fixed value, unchanged state. -/
theorem rngStep_det (sinA : ℚ → ℚ) (entropyN : ℕ → ℚ) (g : RandomGenerator)
    (h : g.randomness = .deterministic) :
    rngStep sinA entropyN g = (detRandom sinA g.seed, g) := by
  unfold rngStep
  rw [h]

/-- Every output of a deterministic-mode `RandomGenerator` is the same fixed
function of the seed, whatever the ambient entropy does. -/
theorem rngOutputs_det (sinA : ℚ → ℚ) (entropy : ℕ → ℚ) (g : RandomGenerator)
    (h : g.randomness = .deterministic) :
    ∀ n, rngOutputs sinA entropy g n = detRandom sinA g.seed := by
  intro n
  induction n with
  | zero =>
      unfold rngOutputs
      rw [rngStep_det sinA entropy g h]
  | succ n ih =>
      unfold rngOutputs
      rw [rngStep_det sinA entropy g h]
      exact ih

/-- C10: in deterministic mode the closure's state never advances — one
`random()` call returns the seed-determined value and the untouched state —
and hence the `n`-th and `m`-th outputs coincide for all `n`, `m`. -/
theorem C10_deterministic_rng_never_advances (sinA : ℚ → ℚ) (entropy : ℕ → ℚ)
    (g : RandomGenerator) (h : g.randomness = .deterministic) (n m : ℕ) :
    (rngStep sinA entropy g).2 = g ∧
    rngOutputs sinA entropy g n = rngOutputs sinA entropy g m := by
  constructor
  · rw [rngStep_det sinA entropy g h]
  · rw [rngOutputs_det sinA entropy g h n, rngOutputs_det sinA entropy g h m]

/-- Witness for C10 at a concrete generator, `n = 0`, `m = 3`. -/
theorem C10_deterministic_rng_never_advances_witness :
    (rngStep (fun _ => 0) (fun _ => 0) ⟨1, .deterministic, 0⟩).2 = ⟨1, .deterministic, 0⟩ ∧
    rngOutputs (fun _ => 0) (fun _ => 0) ⟨1, .deterministic, 0⟩ 0
      = rngOutputs (fun _ => 0) (fun _ => 0) ⟨1, .deterministic, 0⟩ 3 :=
  C10_deterministic_rng_never_advances (fun _ => 0) (fun _ => 0) ⟨1, .deterministic, 0⟩ rfl 0 3

/-- A `charAt` at a drawn index inside the charset yields one character. -/
theorem jsCharAt_len (s : String) (i : ℤ) (h0 : 0 ≤ i) (hlt : i.toNat < s.toList.length) :
    (jsCharAt s i).length = 1 := by
  unfold jsCharAt
  rw [if_neg (by omega)]
  rw [List.get?_eq_get hlt]
  simp

/-- With in-range draws, `randomString` produces exactly `count` characters. -/
theorem randomStringGo_length (r : ℕ → ℚ) (charset : String)
    (hcs : charset.toList.length ≠ 0) (hr : ∀ n, 0 ≤ r n ∧ r n < 1) :
    ∀ count ix, ((randomStringGo r charset count ix).1).length = count := by
  intro count
  induction count with
  | zero => intro ix; rfl
  | succ n ih =>
      intro ix
      have hfl0 : 0 ≤ ⌊r ix * (charset.length : ℚ)⌋ :=
        Int.floor_nonneg.mpr (mul_nonneg (hr ix).1 (by positivity))
      have hflt : ⌊r ix * (charset.length : ℚ)⌋ < (charset.length : ℤ) := by
        apply Int.floor_lt.mpr
        push_cast
        calc r ix * (charset.length : ℚ) < 1 * (charset.length : ℚ) := by
              apply mul_lt_mul_of_pos_right (hr ix).2
              have : 0 < charset.length := Nat.pos_of_ne_zero (show charset.length ≠ 0 from hcs)
              exact_mod_cast this
          _ = (charset.length : ℚ) := one_mul _
      have hnat : (⌊r ix * (charset.length : ℚ)⌋).toNat < charset.toList.length := by
        have : charset.length = charset.toList.length := rfl
        omega
      unfold randomStringGo
      simp only [String.length_append]
      rw [jsCharAt_len charset _ hfl0 hnat, ih (ix + 1)]
      omega

/-- The word-joining loop never exceeds the target length. -/
theorem generateStringLoopGo_le (r : ℕ → ℚ) (lengthQ : ℚ) :
    ∀ fuel result ix s ix2, (result.length : ℚ) ≤ lengthQ →
      generateStringLoopGo r lengthQ fuel result ix = (.ok s, ix2) →
      (s.length : ℚ) ≤ lengthQ := by
  intro fuel
  induction fuel with
  | zero =>
      intro result ix s ix2 hres heq
      unfold generateStringLoopGo at heq
      simp only [Prod.mk.injEq] at heq
      obtain ⟨h1, _⟩ := heq
      cases h1
      exact hres
  | succ n ih =>
      intro result ix s ix2 hres heq
      unfold generateStringLoopGo at heq
      by_cases hlt : (result.length : ℚ) < lengthQ
      · rw [if_pos hlt] at heq
        cases hch : randomChoice wordsList (r ix) with
        | none => rw [hch] at heq; simp at heq
        | some word =>
            rw [hch] at heq
            dsimp only at heq
            by_cases hfit : ((result.length : ℚ) + word.length + 1) ≤ lengthQ
            · rw [if_pos hfit] at heq
              apply ih _ _ _ _ _ heq
              have hsep : ((if result = "" then "" else " ") : String).length ≤ 1 := by
                split <;> decide
              have hsq : (((if result = "" then "" else " ") : String).length : ℚ) ≤ 1 := by
                exact_mod_cast hsep
              simp only [String.length_append]
              push_cast
              linarith
            · rw [if_neg hfit] at heq
              simp only [Prod.mk.injEq] at heq
              obtain ⟨h1, _⟩ := heq
              cases h1
              exact hres
      · rw [if_neg hlt] at heq
        simp only [Prod.mk.injEq] at heq
        obtain ⟨h1, _⟩ := heq
        cases h1
        exact hres

/-- A single in-range draw collapses `randomInt(N, N)` to `N`. -/
theorem randomInt_self (x : ℚ) (N : ℚ) (h0 : 0 ≤ x) (h1 : x < 1) :
    randomInt x N N = N := by
  unfold randomInt
  have : N - N + 1 = (1 : ℚ) := by ring
  rw [this, mul_one]
  rw [Int.floor_eq_zero_iff.mpr ⟨h0, h1⟩]
  simp

/-- Loop count of a natural-number bound. -/
theorem jsLoopCount_natCast (N : ℕ) : jsLoopCount (N : ℚ) = N := by
  unfold jsLoopCount
  rcases Nat.eq_zero_or_pos N with h | h
  · subst h; simp
  · have hnot : ¬((N : ℚ) ≤ 0) := by
      exact not_le.mpr (by exact_mod_cast h)
    rw [if_neg hnot, Int.ceil_natCast]
    simp

/-- A successful array loop yields exactly the accumulated plus requested
number of elements, whatever the items generate. -/
theorem garray_length (env : GenEnv) :
    ∀ fuel itemsOpt count cur acc ix v ix2,
      genStep env fuel (.garray itemsOpt count cur acc) ix = (.ok v, ix2) →
      ∃ xs : List Val, v = .varr xs ∧ xs.length = acc.length + count := by
  intro fuel
  induction fuel with
  | zero =>
      intro itemsOpt count cur acc ix v ix2 heq
      cases count with
      | zero =>
          unfold genStep at heq
          simp only [Prod.mk.injEq] at heq
          obtain ⟨h1, _⟩ := heq
          cases h1
          exact ⟨acc, rfl, by omega⟩
      | succ n => unfold genStep at heq; simp at heq
  | succ fuel ih =>
      intro itemsOpt count cur acc ix v ix2 heq
      cases count with
      | zero =>
          unfold genStep at heq
          simp only [Prod.mk.injEq] at heq
          obtain ⟨h1, _⟩ := heq
          cases h1
          exact ⟨acc, rfl, by omega⟩
      | succ n =>
          unfold genStep at heq
          cases itemsOpt with
          | none => simp at heq
          | some item =>
              dsimp only at heq
              rcases hg : genStep env fuel (.gfield item cur) ix with ⟨res, ixn⟩
              rw [hg] at heq
              cases res with
              | error e => simp at heq
              | ok w =>
                  dsimp only at heq
                  obtain ⟨xs, hxs, hlen⟩ := ih (some item) n cur (acc ++ [w]) ixn v ix2 heq
                  refine ⟨xs, hxs, ?_⟩
                  simp only [List.length_append, List.length_cons, List.length_nil] at hlen
                  omega

/-- C2 (amended): for `min = max = N`, a successfully generated **array** has
exactly `N` elements; a successfully generated plain **string** (no template,
no pattern) has length **at most** `N` for `N ≥ 1` — the word-joining loop can
stop short of `N`, so exactness fails for strings (see the counterexample). -/
theorem C2_min_eq_max_exact_count (env : GenEnv) (fuel : ℕ) (N : ℕ)
    (hr : ∀ n, 0 ≤ env.r n ∧ env.r n < 1) :
    (∀ (field : SchemaField) (cur : JData) (ix : ℕ) (v : Val) (ix2 : ℕ),
      field.ftype = .farray →
      field.opts.min = some (N : ℚ) → field.opts.max = some (N : ℚ) →
      field.opts.generateFn = none → env.plugins = [] →
      genStep env fuel (.gfield field cur) ix = (.ok v, ix2) →
      ∃ xs : List Val, v = .varr xs ∧ xs.length = N) ∧
    (∀ (field : SchemaField) (g cur : JData) (ix : ℕ) (s : String) (ix2 : ℕ),
      1 ≤ N →
      field.opts.template = none → field.opts.pattern = none →
      field.opts.min = some (N : ℚ) → field.opts.max = some (N : ℚ) →
      generateString fuel env.r field g cur ix = (.ok s, ix2) →
      s.length ≤ N) := by
  constructor
  · intro field cur ix v ix2 hft hmin hmax hfn hplug heq
    obtain ⟨o, t, items, props, uts, its, nt⟩ := field
    simp only [SchemaField.ftype] at hft
    simp only [SchemaField.opts] at hmin hmax hfn
    subst hft
    cases fuel with
    | zero => unfold genStep at heq; simp at heq
    | succ fuel =>
        unfold genStep at heq
        rw [hplug] at heq
        simp only [runPlugins] at heq
        dsimp only [SchemaField.opts, SchemaField.ftype, SchemaField.items] at heq
        rw [hfn] at heq
        dsimp only at heq
        rw [hmin, hmax] at heq
        simp only [Option.getD_some] at heq
        by_cases hN : N = 0
        · subst hN
          simp only [Nat.cast_zero] at heq
          rw [if_pos (by norm_num)] at heq
          simp only [Prod.mk.injEq] at heq
          obtain ⟨h1, _⟩ := heq
          cases h1
          exact ⟨[], rfl, rfl⟩
        · rw [if_neg (by simp [hN])] at heq
          rw [randomInt_self (env.r ix) (N : ℚ) (hr ix).1 (hr ix).2] at heq
          rw [jsLoopCount_natCast] at heq
          obtain ⟨xs, hxs, hlen⟩ := garray_length env fuel items N cur [] (ix + 1) v ix2 heq
          exact ⟨xs, hxs, by simpa using hlen⟩
  · intro field g cur ix s ix2 hN htmpl hpat hmin hmax heq
    obtain ⟨o, t, items, props, uts, its, nt⟩ := field
    simp only [SchemaField.opts] at htmpl hpat hmin hmax
    unfold generateString at heq
    dsimp only [SchemaField.opts] at heq
    rw [htmpl] at heq
    unfold generateStringPlain at heq
    dsimp only [SchemaField.opts] at heq
    rw [hpat] at heq
    unfold generateStringPlain.generateStringFree at heq
    dsimp only [SchemaField.opts] at heq
    rw [hmin, hmax] at heq
    have hNq : ((N : ℚ)) ≠ 0 := by
      exact_mod_cast Nat.one_le_iff_ne_zero.mp hN
    have hOr : jsOrNum (some (N : ℚ)) 1 = (N : ℚ) := by
      simp [jsOrNum, hNq]
    have hOr50 : jsOrNum (some (N : ℚ)) 50 = (N : ℚ) := by
      simp [jsOrNum, hNq]
    rw [hOr, hOr50] at heq
    rw [randomInt_self (env.r ix) (N : ℚ) (hr ix).1 (hr ix).2] at heq
    rcases hloop : generateStringLoopGo env.r (N : ℚ) (jsLoopCount (N : ℚ) + 1) "" (ix + 1) with ⟨res, ixn⟩
    rw [hloop] at heq
    cases res with
    | error e => simp at heq
    | ok result =>
        dsimp only at heq
        have hbound : ((result.length : ℚ)) ≤ (N : ℚ) :=
          generateStringLoopGo_le env.r (N : ℚ) _ "" (ix + 1) result ixn (by simp) hloop
        by_cases hres : result = ""
        · rw [if_pos hres] at heq
          simp only [Prod.mk.injEq] at heq
          obtain ⟨h1, _⟩ := heq
          cases h1
          unfold randomString
          rw [jsLoopCount_natCast]
          rw [randomStringGo_length env.r defaultCharset (by decide) hr N _]
        · rw [if_neg hres] at heq
          simp only [Prod.mk.injEq] at heq
          obtain ⟨h1, _⟩ := heq
          cases h1
          exact_mod_cast hbound

/-- Reading back the key just written. -/
theorem objGet_objSet (d : JData) (k : String) (v : Val) :
    objGet (objSet d k v) k = some v := by
  induction d with
  | nil => simp [objSet, objGet]
  | cons kv rest ih =>
      obtain ⟨k0, v0⟩ := kv
      by_cases h : k0 = k
      · subst h; simp [objSet, objGet]
      · simp only [objSet, objGet, if_neg h]
        exact ih

/-- Writing one key leaves the others untouched. -/
theorem objGet_objSet_ne (d : JData) (k : String) (v : Val) (k2 : String) (h : k2 ≠ k) :
    objGet (objSet d k v) k2 = objGet d k2 := by
  induction d with
  | nil =>
      simp only [objSet, objGet]
      rw [if_neg (fun hh => h hh.symm)]
  | cons kv rest ih =>
      obtain ⟨k0, v0⟩ := kv
      by_cases h0 : k0 = k
      · subst h0
        simp only [objSet, if_pos rfl, objGet]
        rw [if_neg (fun hh => h hh.symm), if_neg (fun hh => h hh.symm)]
      · simp only [objSet, if_neg h0, objGet]
        by_cases h2 : k0 = k2
        · rw [if_pos h2, if_pos h2]
        · rw [if_neg h2, if_neg h2]
          exact ih

/-- The key just written is present. -/
theorem objHasKey_objSet_self (d : JData) (k : String) (v : Val) :
    objHasKey (objSet d k v) k = true := by
  unfold objHasKey
  rw [objGet_objSet]
  rfl

/-- A write never removes other keys. -/
theorem objHasKey_objSet_mono (d : JData) (k n : String) (v : Val)
    (h : objHasKey d k = true) : objHasKey (objSet d n v) k = true := by
  by_cases hkn : k = n
  · subst hkn; exact objHasKey_objSet_self d k v
  · unfold objHasKey at *
    rw [objGet_objSet_ne d n v k hkn]
    exact h

/-- A write to a different key preserves absence. -/
theorem objHasKey_objSet_ne (d : JData) (k n : String) (v : Val) (h : k ≠ n) :
    objHasKey (objSet d n v) k = objHasKey d k := by
  unfold objHasKey
  rw [objGet_objSet_ne d n v k h]

set_option maxHeartbeats 2000000 in
/-- One step of the one-shot field loop either raises or continues on the
tail with the data unchanged or extended at the head's name. -/
theorem gobject_cons_cases (env : GenEnv) (fuel : ℕ) (name : String) (field : SchemaField)
    (rest : List (String × SchemaField)) (cur : JData) (ix : ℕ) :
    (∃ e ixe, genStep env (fuel + 1) (.gobject ((name, field) :: rest) cur) ix = (.error e, ixe)) ∨
    (∃ cur1 ix1, genStep env (fuel + 1) (.gobject ((name, field) :: rest) cur) ix
        = genStep env fuel (.gobject rest cur1) ix1
      ∧ (cur1 = cur ∨ ∃ v, cur1 = objSet cur name v)) := by
  simp only [genStep]
  repeat' split
  all_goals try dsimp only
  all_goals first
    | exact Or.inr ⟨_, _, rfl, Or.inl rfl⟩
    | exact Or.inr ⟨_, _, rfl, Or.inr ⟨_, rfl⟩⟩
    | exact Or.inl ⟨_, _, rfl⟩

set_option maxHeartbeats 2000000 in
/-- For a required field with no condition, the loop step either raises or
writes some value under the field's name before continuing — probability never
enters the decision. -/
theorem gobject_cons_required (env : GenEnv) (fuel : ℕ) (name : String) (field : SchemaField)
    (rest : List (String × SchemaField)) (cur : JData) (ix : ℕ)
    (hreq : field.opts.required ≠ some false) (hcond : field.opts.condition = none) :
    (∃ e ixe, genStep env (fuel + 1) (.gobject ((name, field) :: rest) cur) ix = (.error e, ixe)) ∨
    (∃ v ix1, genStep env (fuel + 1) (.gobject ((name, field) :: rest) cur) ix
        = genStep env fuel (.gobject rest (objSet cur name v)) ix1) := by
  have h1 : decide (field.opts.required = some false) = false := decide_eq_false hreq
  simp only [genStep, h1, hcond, Bool.not_false, Bool.not_true, Bool.true_and, Bool.false_and,
    Bool.false_eq_true, if_true, if_false]
  repeat' split
  all_goals try dsimp only
  all_goals first
    | exact Or.inr ⟨_, _, rfl⟩
    | exact Or.inl ⟨_, _, rfl⟩

/-- Keys present in the running data survive the rest of the field loop. -/
theorem gobject_preserves_key (env : GenEnv) :
    ∀ fuel fields cur ix d ix2 k,
      genStep env fuel (.gobject fields cur) ix = (.ok (.vobj d), ix2) →
      objHasKey cur k = true → objHasKey d k = true := by
  intro fuel
  induction fuel with
  | zero =>
      intro fields cur ix d ix2 k heq hk
      cases fields with
      | nil =>
          unfold genStep at heq
          simp only [Prod.mk.injEq, Except.ok.injEq, Val.vobj.injEq] at heq
          obtain ⟨h1, _⟩ := heq
          cases h1
          exact hk
      | cons nf rest => unfold genStep at heq; simp at heq
  | succ fuel ih =>
      intro fields cur ix d ix2 k heq hk
      cases fields with
      | nil =>
          unfold genStep at heq
          simp only [Prod.mk.injEq, Except.ok.injEq, Val.vobj.injEq] at heq
          obtain ⟨h1, _⟩ := heq
          cases h1
          exact hk
      | cons nf rest =>
          obtain ⟨name, field⟩ := nf
          rcases gobject_cons_cases env fuel name field rest cur ix with
            ⟨e, ixe, hc⟩ | ⟨cur1, ix1, hc, hcur1⟩
          · rw [hc] at heq; simp at heq
          · rw [hc] at heq
            refine ih rest cur1 ix1 d ix2 k heq ?_
            rcases hcur1 with rfl | ⟨v, rfl⟩
            · exact hk
            · exact objHasKey_objSet_mono cur k name v hk

/-- In a successful object fold, every field that is required and carries no
condition is present in the output, whatever its probability. -/
theorem gobject_required_key (env : GenEnv) :
    ∀ fuel fields cur ix d ix2 k f,
      (k, f) ∈ fields →
      f.opts.required ≠ some false →
      f.opts.condition = none →
      genStep env fuel (.gobject fields cur) ix = (.ok (.vobj d), ix2) →
      objHasKey d k = true := by
  intro fuel
  induction fuel with
  | zero =>
      intro fields cur ix d ix2 k f hmem hreq hcond heq
      cases fields with
      | nil => cases hmem
      | cons nf rest => unfold genStep at heq; simp at heq
  | succ fuel ih =>
      intro fields cur ix d ix2 k f hmem hreq hcond heq
      cases fields with
      | nil => cases hmem
      | cons nf rest =>
          obtain ⟨name, field⟩ := nf
          rcases List.mem_cons.mp hmem with hhead | htail
          · obtain ⟨hk, hf⟩ := Prod.mk.injEq .. ▸ hhead
            subst hk
            subst hf
            rcases gobject_cons_required env fuel k f rest cur ix hreq hcond with
              ⟨e, ixe, hc⟩ | ⟨v, ix1, hc⟩
            · rw [hc] at heq; simp at heq
            · rw [hc] at heq
              exact gobject_preserves_key env fuel rest _ ix1 d ix2 k heq
                (objHasKey_objSet_self cur k v)
          · rcases gobject_cons_cases env fuel name field rest cur ix with
              ⟨e, ixe, hc⟩ | ⟨cur1, ix1, hc, _⟩
            · rw [hc] at heq; simp at heq
            · rw [hc] at heq
              exact ih rest cur1 ix1 d ix2 k f htail hreq hcond heq

set_option maxHeartbeats 1000000 in
/-- The loop step on an optional, probability-zero field without
`simulateError` is the identity: same data, same draw cursor. -/
theorem gobject_zero_prob_skip (env : GenEnv) (fuel : ℕ) (name : String) (field : SchemaField)
    (rest : List (String × SchemaField)) (cur : JData) (ix : ℕ)
    (hreq : field.opts.required = some false) (hprob : field.opts.probability = some 0)
    (hse : field.opts.simulateError.getD false = false) :
    genStep env (fuel + 1) (.gobject ((name, field) :: rest) cur) ix
      = genStep env fuel (.gobject rest cur) ix := by
  have h1 : decide (field.opts.required = some false) = true := decide_eq_true hreq
  simp [genStep, h1, hse, hprob]

set_option maxHeartbeats 1000000 in
/-- Optional probability-zero fields without `simulateError`: the loop step
is the identity, and a key covered only by such fields stays absent. -/
theorem gobject_zero_prob_props (env : GenEnv) :
    (∀ fuel name field rest cur ix,
      field.opts.required = some false →
      field.opts.probability = some 0 →
      field.opts.simulateError.getD false = false →
      genStep env (fuel + 1) (.gobject ((name, field) :: rest) cur) ix
        = genStep env fuel (.gobject rest cur) ix) ∧
    (∀ fuel fields cur ix d ix2 k,
      (∀ f : SchemaField, (k, f) ∈ fields →
        f.opts.required = some false ∧ f.opts.probability = some 0 ∧
        f.opts.simulateError.getD false = false) →
      objHasKey cur k = false →
      genStep env fuel (.gobject fields cur) ix = (.ok (.vobj d), ix2) →
      objHasKey d k = false) := by
  constructor
  · intro fuel name field rest cur ix hreq hprob hse
    exact gobject_zero_prob_skip env fuel name field rest cur ix hreq hprob hse
  · intro fuel
    induction fuel with
    | zero =>
        intro fields cur ix d ix2 k hall hk heq
        cases fields with
        | nil =>
            unfold genStep at heq
            simp only [Prod.mk.injEq, Except.ok.injEq, Val.vobj.injEq] at heq
            obtain ⟨h1, _⟩ := heq
            cases h1
            exact hk
        | cons nf rest => unfold genStep at heq; simp at heq
    | succ fuel ih =>
        intro fields cur ix d ix2 k hall hk heq
        cases fields with
        | nil =>
            unfold genStep at heq
            simp only [Prod.mk.injEq, Except.ok.injEq, Val.vobj.injEq] at heq
            obtain ⟨h1, _⟩ := heq
            cases h1
            exact hk
        | cons nf rest =>
            obtain ⟨name, field⟩ := nf
            have hallRest : ∀ f : SchemaField, (k, f) ∈ rest →
                f.opts.required = some false ∧ f.opts.probability = some 0 ∧
                f.opts.simulateError.getD false = false :=
              fun f hf => hall f (List.mem_cons_of_mem _ hf)
            by_cases hkn : name = k
            · subst hkn
              obtain ⟨hreq, hprob, hse⟩ := hall field (List.mem_cons_self _ _)
              rw [gobject_zero_prob_skip env fuel name field rest cur ix hreq hprob hse] at heq
              exact ih rest cur ix d ix2 name hallRest hk heq
            · rcases gobject_cons_cases env fuel name field rest cur ix with
                ⟨e, ixe, hc⟩ | ⟨cur1, ix1, hc, hcur1⟩
              · rw [hc] at heq; simp at heq
              · rw [hc] at heq
                refine ih rest cur1 ix1 d ix2 k hallRest ?_ heq
                rcases hcur1 with rfl | ⟨v, rfl⟩
                · exact hk
                · rw [objHasKey_objSet_ne cur k name v (fun hh => hkn hh.symm)]
                  exact hk

/-- C5 (amended): in a successful `generateObjectData` run, every field that
is required (`required` not explicitly `false`) and carries **no** condition
is present in the output, whatever its probability; a required field *with* a
condition can be dropped (see the counterexample). -/
theorem C5_required_field_present (env : GenEnv) :
    ∀ fuel fields cur ix d ix2 k f,
      (k, f) ∈ fields →
      f.opts.required ≠ some false →
      f.opts.condition = none →
      generateObjectData env fuel fields cur ix = (.ok (.vobj d), ix2) →
      objHasKey d k = true :=
  fun fuel fields cur ix d ix2 k f hmem hreq hcond heq =>
    gobject_required_key env fuel fields cur ix d ix2 k f hmem hreq hcond heq

/-- C6 (amended): an optional field with probability `0` and **without**
`simulateError` is skipped entirely — its `generateObjectData` step changes
neither the data nor the draw cursor, and on success its key is absent from
the output when it was absent before and every homonymous field is likewise
skippable.  (With `simulateError` set, the field can still consume a draw and
surface as an error marker — see the counterexample.) -/
theorem C6_zero_probability_skipped (env : GenEnv) :
    (∀ fuel name field rest cur ix,
      field.opts.required = some false →
      field.opts.probability = some 0 →
      field.opts.simulateError.getD false = false →
      generateObjectData env (fuel + 1) ((name, field) :: rest) cur ix
        = generateObjectData env fuel rest cur ix) ∧
    (∀ fuel fields cur ix d ix2 k,
      (∀ f : SchemaField, (k, f) ∈ fields →
        f.opts.required = some false ∧ f.opts.probability = some 0 ∧
        f.opts.simulateError.getD false = false) →
      objHasKey cur k = false →
      generateObjectData env fuel fields cur ix = (.ok (.vobj d), ix2) →
      objHasKey d k = false) :=
  ⟨fun fuel name field rest cur ix h1 h2 h3 =>
      (gobject_zero_prob_props env).1 fuel name field rest cur ix h1 h2 h3,
   fun fuel fields cur ix d ix2 k hall hk heq =>
      (gobject_zero_prob_props env).2 fuel fields cur ix d ix2 k hall hk heq⟩

/-- A probe custom generator returning the `currentData` it was handed. -/
def c4probeFn : GenFn := fun _ cur _ ix => (Val.vobj cur, ix)

/-- An item field generated solely by the probe. -/
def c4probeItem : SchemaField := mkScalarField .fstring { generateFn := some c4probeFn }

/-- C4 (amended): each array element's generation receives the **enclosing
object's `currentData`**, not a fresh empty one — every element produced over
a probe item that returns its `currentData` is exactly the enclosing data
(with a fresh currentData every element would be the empty object). -/
theorem C4_array_items_receive_enclosing_data (env : GenEnv) (hplug : env.plugins = []) :
    ∀ fuel count cur acc ix, count < fuel →
      genStep env fuel (.garray (some c4probeItem) count cur acc) ix
        = (.ok (.varr (acc ++ List.replicate count (Val.vobj cur))), ix) := by
  intro fuel
  induction fuel with
  | zero => intro count cur acc ix h; omega
  | succ fuel ih =>
      intro count cur acc ix h
      cases count with
      | zero => simp [genStep]
      | succ n =>
          have hfld : genStep env fuel (.gfield c4probeItem cur) ix = (.ok (.vobj cur), ix) := by
            cases fuel with
            | zero => omega
            | succ m =>
                unfold genStep
                rw [hplug]
                rfl
          unfold genStep
          dsimp only
          rw [hfld]
          dsimp only
          rw [ih n cur (acc ++ [Val.vobj cur]) ix (by omega)]
          simp [List.replicate_succ, List.append_assoc]

/-- An all-zero draw stream (a valid `[0,1)` draw at every index). -/
def zenv : GenEnv := { r := fun _ => 0 }

/-- Constant draw stream 0.53 (picks the word "ut" from the dictionary). -/
def c2cr : ℕ → ℚ := fun _ => 53/100

/-- A plain string field with `min = max = 6`. -/
def c2cfield : SchemaField := mkScalarField .fstring { min := some 6, max := some 6 }

/-- C2 counterexample: with in-range draws and `min = max = 6`, the word loop
produces `"ut ut"` of length 5, not 6 — generated string length is not
exactly `N`. -/
theorem C2_exact_string_length_counterexample :
    (0 ≤ c2cr 0 ∧ c2cr 0 < 1) ∧
    generateString 5 c2cr c2cfield [] [] 0 = (.ok "ut ut", 4) ∧
    "ut ut".length ≠ 6 :=
  ⟨⟨by norm_num [c2cr], by norm_num [c2cr]⟩, by with_unfolding_all rfl, by decide⟩

/-- An array field with `min = max = 1` over boolean items. -/
def c2wafield : SchemaField :=
  ⟨{ min := some 1, max := some 1 }, .farray, some (mkScalarField .fboolean {}), none, none, none, none⟩

/-- A plain string field with `min = max = 1`. -/
def c2wsfield : SchemaField := mkScalarField .fstring { min := some 1, max := some 1 }

/-- Witness for C2 at `N = 1` and the all-zero draw stream. -/
theorem C2_min_eq_max_exact_count_witness :
    (∃ xs : List Val, Val.varr [Val.vbool true] = Val.varr xs ∧ xs.length = 1) ∧
    "a".length ≤ 1 := by
  have hr : ∀ n, 0 ≤ zenv.r n ∧ zenv.r n < 1 := by
    intro n
    constructor <;> norm_num [zenv]
  constructor
  · exact (C2_min_eq_max_exact_count zenv 5 1 hr).1 c2wafield [] 0 (Val.varr [Val.vbool true]) 2
      rfl (by with_unfolding_all rfl) (by with_unfolding_all rfl) rfl rfl (by with_unfolding_all rfl)
  · exact (C2_min_eq_max_exact_count zenv 5 1 hr).2 c2wsfield [] [] 0 "a" 3
      (by norm_num) rfl rfl (by with_unfolding_all rfl) (by with_unfolding_all rfl)
      (by with_unfolding_all rfl)

/-- Template text consisting of a doubly-braced key `a`. -/
def c4tmpl : String := "\x7b\x7ba\x7d\x7d"

/-- Fields: a templated string `a`, then an array `b` of one templated-string
item referencing `a`. -/
def c4fields : List (String × SchemaField) :=
  [("a", mkScalarField .fstring { template := some "v" }),
   ("b", ⟨{ min := some 1, max := some 1 }, .farray,
      some (mkScalarField .fstring { template := some c4tmpl }), none, none, none, none⟩)]

/-- C4 counterexample: the array item's template interpolates to the sibling
field `a`'s value `"v"` — against a fresh empty `currentData` (and empty
global context) the same template interpolates to `""`, so array items do see
the array's sibling fields. -/
theorem C4_fresh_currentData_counterexample :
    generateObjectData zenv 5 c4fields [] 0
      = (.ok (.vobj [("a", .vstr "v"), ("b", .varr [.vstr "v"])]), 1) ∧
    interpolateTemplate 5 c4tmpl [] [] = "" :=
  ⟨by with_unfolding_all rfl, by with_unfolding_all rfl⟩

/-- Witness for C4 at two elements over a non-empty enclosing `currentData`. -/
theorem C4_array_items_receive_enclosing_data_witness :
    genStep zenv 3 (.garray (some c4probeItem) 2 [("s", Val.vnum 7)] []) 0
      = (.ok (.varr ([] ++ List.replicate 2 (Val.vobj [("s", Val.vnum 7)]))), 0) :=
  C4_array_items_receive_enclosing_data zenv rfl 3 2 [("s", Val.vnum 7)] [] 0 (by omega)

/-- A required string field whose condition always returns false. -/
def c5field : SchemaField :=
  mkScalarField .fstring { required := some true, condition := some (fun _ _ => false) }

/-- C5 counterexample: a **required** field with an always-false condition is
dropped from the successful output — required-field inclusion is not
unconditional. -/
theorem C5_required_field_dropped_counterexample :
    generateObjectData zenv 5 [("a", c5field)] [] 0 = (.ok (.vobj []), 0) ∧
    objHasKey [] "a" = false :=
  ⟨by with_unfolding_all rfl, rfl⟩

/-- A required string field with no condition. -/
def c5wfield : SchemaField := mkScalarField .fstring { required := some true }

/-- Witness for C5 on a one-field schema. -/
theorem C5_required_field_present_witness :
    objHasKey [("a", Val.vstr "a")] "a" = true :=
  C5_required_field_present zenv 5 [("a", c5wfield)] [] 0 [("a", Val.vstr "a")] 3 "a" c5wfield
    (List.mem_singleton.mpr rfl) (by decide) rfl (by with_unfolding_all rfl)

/-- An optional field with probability zero. -/
def c6field : SchemaField := mkScalarField .fstring { required := some false, probability := some 0 }

/-- An optional probability-zero field that also has `simulateError` set. -/
def c6errField : SchemaField :=
  mkScalarField .fstring { required := some false, probability := some 0, simulateError := some true }

/-- C6 counterexample: an optional probability-zero field **with**
`simulateError` set is not skipped — the error marker appears under its key
and a draw is consumed (the cursor advances from 0 to 1). -/
theorem C6_zero_probability_counterexample :
    generateObjectData zenv 5 [("z", c6errField)] [] 0
      = (.ok (.vobj [("z", .vobj [("error", .vstr "SimulatedFieldError")])]), 1) ∧
    objHasKey [("z", Val.vobj [("error", Val.vstr "SimulatedFieldError")])] "z" = true :=
  ⟨by with_unfolding_all rfl, by with_unfolding_all rfl⟩

/-- Witness for C6: the skip step is the identity and the key stays absent. -/
theorem C6_zero_probability_skipped_witness :
    (generateObjectData zenv 4 [("z", c6field)] [("x", Val.vnull)] 7
      = generateObjectData zenv 3 [] [("x", Val.vnull)] 7) ∧
    objHasKey [] "z" = false := by
  constructor
  · exact (C6_zero_probability_skipped zenv).1 3 "z" c6field [] [("x", Val.vnull)] 7 rfl rfl rfl
  · refine (C6_zero_probability_skipped zenv).2 5 [("z", c6field)] [] 0 [] 0 "z" ?_ rfl
      (by with_unfolding_all rfl)
    intro f hf
    simp only [List.mem_singleton, Prod.mk.injEq] at hf
    obtain ⟨_, hf2⟩ := hf
    subst hf2
    exact ⟨rfl, rfl, rfl⟩

set_option maxHeartbeats 2000000 in
/-- For a field without `simulateError` and not optional-with-probability-0,
the one-shot loop step is exactly the stream's per-field step followed by the
matching continuation: identical draws, identical inclusion and hallucination
decisions, identical data update. -/
theorem gobject_cons_stream_eq (env : GenEnv) (fuel : ℕ) (name : String) (field : SchemaField)
    (rest : List (String × SchemaField)) (cur : JData) (ix : ℕ)
    (hse : field.opts.simulateError.getD false = false)
    (hnp : ¬(field.opts.required = some false ∧ field.opts.probability = some 0)) :
    genStep env (fuel + 1) (.gobject ((name, field) :: rest) cur) ix
      = (match streamFieldStep env fuel field cur ix with
         | (.error e, ixn) => (.error e, ixn)
         | (.ok none, ixn) => genStep env fuel (.gobject rest cur) ixn
         | (.ok (some v), ixn) => genStep env fuel (.gobject rest (objSet cur name v)) ixn) := by
  have hskip : (!(!decide (field.opts.required = some false))
      && decide (field.opts.probability.getD 1 = 0)) = false := by
    by_cases hreq : field.opts.required = some false
    · have hp : field.opts.probability.getD 1 ≠ 0 := by
        cases hpo : field.opts.probability with
        | none => simp
        | some p =>
            simp only [Option.getD_some]
            intro h0
            exact hnp ⟨hreq, by rw [hpo, h0]⟩
      simp [hp]
    · simp [hreq]
  simp only [genStep, streamFieldStep, hse, Bool.false_eq_true, if_false, hskip]
  repeat' split
  all_goals try dsimp only
  all_goals first
    | rfl
    | simp_all

/-- Composition: the one-shot fold over `taken ++ rest` is the stream chunk
over `taken` followed by the one-shot fold over `rest` on the updated data —
with the budget reduced by exactly one per chunk field, matching both
traversals. -/
theorem streamChunk_compose (env : GenEnv) :
    ∀ (taken : List (String × SchemaField)) (rest : List (String × SchemaField))
      (fuel : ℕ) (chunk full : JData) (ix : ℕ),
      (∀ kf : String × SchemaField, kf ∈ taken →
        kf.2.opts.simulateError.getD false = false ∧
        ¬(kf.2.opts.required = some false ∧ kf.2.opts.probability = some 0)) →
      genStep env fuel (.gobject (taken ++ rest) full) ix
        = (match streamChunkGo env fuel taken chunk full ix with
           | (.error e, ixn) => (.error e, ixn)
           | (.ok (_, full2), ixn) => genStep env (fuel - taken.length) (.gobject rest full2) ixn) := by
  intro taken
  induction taken with
  | nil =>
      intro rest fuel chunk full ix _
      simp [streamChunkGo]
  | cons kf taken ih =>
      intro rest fuel chunk full ix hall
      obtain ⟨name, field⟩ := kf
      obtain ⟨hse, hnp⟩ := hall (name, field) (List.mem_cons_self _ _)
      cases fuel with
      | zero => simp [genStep, streamChunkGo]
      | succ fuel =>
          rw [List.cons_append]
          rw [gobject_cons_stream_eq env fuel name field (taken ++ rest) full ix hse hnp]
          simp only [streamChunkGo]
          rcases hsf : streamFieldStep env fuel field full ix with ⟨res, ixn⟩
          cases res with
          | error e => simp
          | ok ov =>
              cases ov with
              | none =>
                  dsimp only
                  rw [ih rest fuel chunk full ixn
                    (fun kf2 hkf => hall kf2 (List.mem_cons_of_mem _ hkf))]
                  simp [Nat.succ_sub_succ]
              | some v =>
                  dsimp only
                  rw [ih rest fuel (objSet chunk name v) (objSet full name v) ixn
                    (fun kf2 hkf => hall kf2 (List.mem_cons_of_mem _ hkf))]
                  simp [Nat.succ_sub_succ]

/-- The streaming while-loop and the one-shot field fold produce the same
final data and draw cursor (and fail together), given per-field hypotheses,
a positive chunk size, no abort, and a step budget covering the fields. -/
theorem streamWhile_eq_gobject (env : GenEnv) (chunkSz : ℕ) (hcs : 1 ≤ chunkSz) :
    ∀ (steps : ℕ) (fields : List (String × SchemaField)) (chunkIdx fuel : ℕ) (full : JData) (ix : ℕ),
      fields.length ≤ steps →
      (∀ kf : String × SchemaField, kf ∈ fields →
        kf.2.opts.simulateError.getD false = false ∧
        ¬(kf.2.opts.required = some false ∧ kf.2.opts.probability = some 0)) →
      (match streamWhileGo env chunkSz (fun _ => false) steps chunkIdx fuel fields full ix with
       | (.error e, ixn) => (Except.error e, ixn)
       | (.ok (_, ffull), ixn) => (Except.ok ffull, ixn))
        = (match genStep env fuel (.gobject fields full) ix with
           | (.error e, ixn) => (Except.error e, ixn)
           | (.ok v, ixn) => (Except.ok (asObjKVs v), ixn)) := by
  intro steps
  induction steps with
  | zero =>
      intro fields chunkIdx fuel full ix hlen _
      cases fields with
      | nil =>
          cases fuel with
          | zero => simp [streamWhileGo, genStep, asObjKVs]
          | succ fuel => simp [streamWhileGo, genStep, asObjKVs]
      | cons kf rest => simp at hlen
  | succ steps ih =>
      intro fields chunkIdx fuel full ix hlen hall
      cases fields with
      | nil =>
          cases fuel with
          | zero => simp [streamWhileGo, genStep, asObjKVs]
          | succ fuel => simp [streamWhileGo, genStep, asObjKVs]
      | cons kf rest =>
          have hsplit := List.take_append_drop chunkSz (kf :: rest)
          have hB := streamChunk_compose env ((kf :: rest).take chunkSz) ((kf :: rest).drop chunkSz)
            fuel [] full ix
            (fun kf2 hkf => hall kf2 (List.mem_of_mem_take hkf))
          rw [hsplit] at hB
          simp only [streamWhileGo]
          rw [hB]
          rcases hcg : streamChunkGo env fuel ((kf :: rest).take chunkSz) [] full ix with ⟨cres, ixn⟩
          cases cres with
          | error e => simp
          | ok p =>
              obtain ⟨chunk, full2⟩ := p
              dsimp only
              have hlen2 : ((kf :: rest).drop chunkSz).length ≤ steps := by
                simp only [List.length_drop, List.length_cons] at *
                omega
              have hall2 : ∀ kf2 : String × SchemaField, kf2 ∈ (kf :: rest).drop chunkSz →
                  kf2.2.opts.simulateError.getD false = false ∧
                  ¬(kf2.2.opts.required = some false ∧ kf2.2.opts.probability = some 0) :=
                fun kf2 hkf => hall kf2 (List.mem_of_mem_drop hkf)
              have hR := ih ((kf :: rest).drop chunkSz) (chunkIdx + 1)
                (fuel - ((kf :: rest).take chunkSz).length) full2 ixn hlen2 hall2
              rcases hW : streamWhileGo env chunkSz (fun _ => false) steps (chunkIdx + 1)
                  (fuel - ((kf :: rest).take chunkSz).length) ((kf :: rest).drop chunkSz) full2 ixn
                with ⟨wres, ixw⟩
              rw [hW] at hR
              cases wres with
              | error e =>
                  dsimp only
                  rw [← hR]
                  simp
              | ok q =>
                  obtain ⟨chunks, ffull⟩ := q
                  dsimp only
                  rw [← hR]
                  simp

/-- C3: amended — per-field streaming equals one-shot generation (same
inclusion draw/condition, same hallucination rule, one shared `fullData`,
identical success/failure and draw cursor) **provided** no field sets
`simulateError` and no optional field has probability 0; the per-field
50%-error-marker rule and the zero-probability skip exist only in the
one-shot path. -/
theorem C3_stream_matches_oneshot (env : GenEnv) (fuel steps : ℕ) (schema : Schema)
    (chunkSize : Option ℚ)
    (hv : validateSchema schema = .ok ())
    (hcs : 1 ≤ jsLoopCount ((chunkSize.orElse (fun _ => env.options.streamChunkSize)).getD 1))
    (hlen : schema.fields.length ≤ steps)
    (hall : ∀ kf : String × SchemaField, kf ∈ schema.fields →
        kf.2.opts.simulateError.getD false = false ∧
        ¬(kf.2.opts.required = some false ∧ kf.2.opts.probability = some 0))
    (ix : ℕ) :
    (match streamGenerate env fuel steps schema chunkSize (fun _ => false) ix with
     | (.error e, ixn) => (Except.error e, ixn)
     | (.ok (_, full), ixn) => (Except.ok full, ixn))
      = (match generateObjectData env fuel schema.fields [] ix with
         | (.error e, ixn) => (Except.error e, ixn)
         | (.ok v, ixn) => (Except.ok (asObjKVs v), ixn)) := by
  unfold streamGenerate generateObjectData
  rw [hv]
  exact streamWhile_eq_gobject env _ hcs steps schema.fields 0 fuel [] ix hlen hall

def c3field : SchemaField := mkScalarField .fstring { simulateError := some true }

def c3schema : Schema := { name := some "S", fields := [("e", c3field)] }

/-- With a field-level `simulateError`, the one-shot path may replace the
value by the error-marker object (consuming one draw) while the streaming
path ignores the flag and generates the string: the two outputs differ and so
do the consumed draw counts. -/
theorem C3_simulateError_stream_counterexample :
    generateObjectData zenv 5 c3schema.fields [] 0
      = (.ok (Val.vobj [("e", simErrVal c3field)]), 1) ∧
    (match streamGenerate zenv 5 3 c3schema none (fun _ => false) 0 with
     | (.ok (_, full), ixn) => some (full, ixn)
     | (.error _, _) => none) = some ([("e", Val.vstr "a")], 3) ∧
    Val.vobj [("e", simErrVal c3field)] ≠ Val.vobj [("e", Val.vstr "a")] := by
  refine ⟨by with_unfolding_all rfl, by with_unfolding_all rfl, ?_⟩
  simp [simErrVal]

def c3wschema : Schema := { name := some "W", fields := [("b", mkScalarField .fboolean {})] }

/-- Witness for C3 at a one-field boolean schema. -/
theorem C3_stream_matches_oneshot_witness :
    (match streamGenerate zenv 5 1 c3wschema none (fun _ => false) 0 with
     | (.error e, ixn) => (Except.error e, ixn)
     | (.ok (_, full), ixn) => (Except.ok full, ixn))
      = (match generateObjectData zenv 5 c3wschema.fields [] 0 with
         | (.error e, ixn) => (Except.error e, ixn)
         | (.ok v, ixn) => (Except.ok (asObjKVs v), ixn)) :=
  C3_stream_matches_oneshot zenv 5 1 c3wschema none (by with_unfolding_all rfl)
    (le_of_eq (by with_unfolding_all rfl))
    (by decide)
    (by
      intro kf hkf
      simp only [c3wschema, List.mem_singleton] at hkf
      subst hkf
      exact ⟨rfl, by simp [mkScalarField, SchemaField.opts]⟩)
    0

/-- C7: amended — two instances built with the same **non-zero** seed and
mode `deterministic` produce identical responses for the same call sequence,
whatever their ambient entropy; seed 0 is falsy in the constructor's
`seed || Math.floor(Math.random() * 1000000)` and falls back to entropy. -/
theorem C7_same_seed_same_output (sinA : ℚ → ℚ) (eA eB : ℕ → ℚ) (s : ℚ) (hs : ¬(s = 0))
    (opts : MockGeneratorOptions) (hseed : opts.seed = some s)
    (hmode : opts.randomness = some .deterministic)
    (plugins : List Plugin) (registered : List (String × Schema)) (t0 : ℚ)
    (fuel : ℕ) (calls : List (Schema × ℚ)) :
    runCalls (mkMockGenerator sinA eA opts plugins registered t0).1 fuel
        (mkMockGenerator sinA eA opts plugins registered t0).2 calls
      = runCalls (mkMockGenerator sinA eB opts plugins registered t0).1 fuel
          (mkMockGenerator sinA eB opts plugins registered t0).2 calls := by
  have hgA : mkRandomGenerator opts.seed (opts.randomness.getD .random) eA
      = ⟨s, .deterministic, 0⟩ := by
    rw [hseed, hmode]
    unfold mkRandomGenerator
    dsimp only
    rw [if_neg hs]
    rfl
  have hgB : mkRandomGenerator opts.seed (opts.randomness.getD .random) eB
      = ⟨s, .deterministic, 0⟩ := by
    rw [hseed, hmode]
    unfold mkRandomGenerator
    dsimp only
    rw [if_neg hs]
    rfl
  have hr : rngOutputs sinA eA (⟨s, .deterministic, 0⟩ : RandomGenerator)
      = rngOutputs sinA eB (⟨s, .deterministic, 0⟩ : RandomGenerator) := by
    funext n
    rw [rngOutputs_det sinA eA _ rfl n, rngOutputs_det sinA eB _ rfl n]
  unfold mkMockGenerator
  dsimp only
  rw [hgA, hgB, hr]

def c7sinA : ℚ → ℚ := fun q => q / 30000

def c7entA : ℕ → ℚ := fun _ => 1/2

def c7entB : ℕ → ℚ := fun _ => 1/4

def c7opts : MockGeneratorOptions := { seed := some 0, randomness := some .deterministic }

def c7schema : Schema := { name := some "S", fields := [("n", mkScalarField .fnumber {})] }

def c7mk (ent : ℕ → ℚ) : GenEnv × GenState := mkMockGenerator c7sinA ent c7opts [] [] 0

/-- The data of the first response of a call run, when it succeeded. -/
def respDataOf (p : List (Except SynError MockResponse) × GenState) : Option Val :=
  match p.1 with
  | (.ok resp) :: _ => some resp.data
  | _ => none

def c7runA : List (Except SynError MockResponse) × GenState :=
  runCalls (c7mk c7entA).1 5 (c7mk c7entA).2 [(c7schema, 0)]

def c7runB : List (Except SynError MockResponse) × GenState :=
  runCalls (c7mk c7entB).1 5 (c7mk c7entB).2 [(c7schema, 0)]

/-- With seed 0 and mode `deterministic`, two instances differing only in
ambient entropy give different data for the same schema: `0` is falsy, so the
constructor replaces the seed by `Math.floor(Math.random() * 1000000)`. -/
theorem C7_seed_zero_counterexample :
    respDataOf c7runA = some (Val.vobj [("n", Val.vnum 556)]) ∧
    respDataOf c7runB = some (Val.vobj [("n", Val.vnum 778)]) ∧
    respDataOf c7runA ≠ respDataOf c7runB := by
  have hA : respDataOf c7runA = some (Val.vobj [("n", Val.vnum 556)]) := by
    with_unfolding_all rfl
  have hB : respDataOf c7runB = some (Val.vobj [("n", Val.vnum 778)]) := by
    with_unfolding_all rfl
  refine ⟨hA, hB, ?_⟩
  rw [hA, hB]
  simp

/-- Witness for C7: seed 1, entropy streams 1/2 and 1/4, one call. -/
theorem C7_same_seed_same_output_witness :
    runCalls (mkMockGenerator c7sinA c7entA { seed := some 1, randomness := some .deterministic } [] [] 0).1 5
        (mkMockGenerator c7sinA c7entA { seed := some 1, randomness := some .deterministic } [] [] 0).2
        [(c7schema, 0)]
      = runCalls (mkMockGenerator c7sinA c7entB { seed := some 1, randomness := some .deterministic } [] [] 0).1 5
          (mkMockGenerator c7sinA c7entB { seed := some 1, randomness := some .deterministic } [] [] 0).2
          [(c7schema, 0)] :=
  C7_same_seed_same_output c7sinA c7entA c7entB 1 (by norm_num)
    { seed := some 1, randomness := some .deterministic } rfl rfl [] [] 0 5 [(c7schema, 0)]

/-- A `generate` call that passes validation, with quota inactive and global
error simulation off, propagates a rate-limit error unchanged; when the rate
gate passes, the call's final state is the gate's state with only the draw
cursor changed (the counter and window survive whatever generation does). -/
theorem mockGenCall_after_gate (env : GenEnv) (fuel : ℕ) (schema : Schema) (st : GenState)
    (hv : validateSchema schema = .ok ())
    (hq : env.options.quota = none)
    (hse : env.options.simulateError.getD false = false) :
    (∀ e st1, handleRateLimiting env.options st env.now = (.error e, st1) →
      mockGenCall env fuel schema st = (.error e, st1)) ∧
    (∀ st1, handleRateLimiting env.options st env.now = (.ok (), st1) →
      ∃ ixn, (mockGenCall env fuel schema st).2 = { st1 with ix := ixn }) := by
  constructor
  · intro e st1 h
    unfold mockGenCall
    rw [hv, h]
  · intro st1 h
    unfold mockGenCall
    rw [hv, h]
    unfold handleQuota
    rw [hq]
    dsimp only
    unfold handleGlobalErrorSimulation
    rw [hse]
    simp only [Bool.false_eq_true, if_false]
    repeat' split
    all_goals exact ⟨_, rfl⟩

/-- The rate gate when active, in-window and under the limit: counter +1. -/
theorem handleRateLimiting_ok (options : MockGeneratorOptions) (st : GenState) (now T limit : ℚ)
    (hrl : options.rateLimit = some limit) (hri : options.rateLimitIntervalMs = some T)
    (hl0 : ¬(limit = 0)) (hT : ¬(T = 0)) (hnr : ¬(now - st.lastReset > T))
    (hcnt : ¬(st.requestCount + 1 > limit)) :
    handleRateLimiting options st now = (.ok (), { st with requestCount := st.requestCount + 1 }) := by
  unfold handleRateLimiting
  rw [hrl, hri]
  try dsimp only
  rw [if_neg (not_or.mpr ⟨hl0, hT⟩), if_neg hnr]
  try dsimp only
  rw [if_neg hcnt]

/-- The rate gate when active, in-window and at the limit: `RATE_LIMIT`
while the increment persists. -/
theorem handleRateLimiting_exceed (options : MockGeneratorOptions) (st : GenState) (now T limit : ℚ)
    (hrl : options.rateLimit = some limit) (hri : options.rateLimitIntervalMs = some T)
    (hl0 : ¬(limit = 0)) (hT : ¬(T = 0)) (hnr : ¬(now - st.lastReset > T))
    (hcnt : st.requestCount + 1 > limit) :
    handleRateLimiting options st now
      = (.error ⟨"Rate limit exceeded", "RATE_LIMIT"⟩, { st with requestCount := st.requestCount + 1 }) := by
  unfold handleRateLimiting
  rw [hrl, hri]
  try dsimp only
  rw [if_neg (not_or.mpr ⟨hl0, hT⟩), if_neg hnr]
  try dsimp only
  rw [if_pos hcnt]

/-- The rate gate after the window elapsed: reset, then counter 1. -/
theorem handleRateLimiting_reset (options : MockGeneratorOptions) (st : GenState) (now T limit : ℚ)
    (hrl : options.rateLimit = some limit) (hri : options.rateLimitIntervalMs = some T)
    (hl0 : ¬(limit = 0)) (hT : ¬(T = 0)) (hnr : now - st.lastReset > T)
    (hcnt : ¬((0 : ℚ) + 1 > limit)) :
    handleRateLimiting options st now
      = (.ok (), { st with requestCount := 0 + 1, lastReset := now }) := by
  unfold handleRateLimiting
  rw [hrl, hri]
  try dsimp only
  rw [if_neg (not_or.mpr ⟨hl0, hT⟩), if_pos hnr]
  try dsimp only
  rw [if_neg hcnt]

/-- C8: with `rateLimit = 2` and a nonzero interval `T`, starting from a
counter at 0, the third `generate` call whose instant still lies within the
window fails with `RATE_LIMIT`; and the rate gate of a call made more than
`T` after the window start resets the counter and passes. -/
theorem C8_rate_limit_two (envBase : GenEnv) (fuel : ℕ) (schema : Schema) (st0 : GenState)
    (T t1 t2 t3 t4 : ℚ)
    (hrl : envBase.options.rateLimit = some 2)
    (hri : envBase.options.rateLimitIntervalMs = some T)
    (hT : ¬(T = 0))
    (hv : validateSchema schema = .ok ())
    (hq : envBase.options.quota = none)
    (hse : envBase.options.simulateError.getD false = false)
    (hc0 : st0.requestCount = 0)
    (h1 : ¬(t1 - st0.lastReset > T))
    (h2 : ¬(t2 - st0.lastReset > T))
    (h3 : ¬(t3 - st0.lastReset > T))
    (h4 : t4 - st0.lastReset > T) :
    (mockGenCall { envBase with now := t3 } fuel schema
        (mockGenCall { envBase with now := t2 } fuel schema
          (mockGenCall { envBase with now := t1 } fuel schema st0).2).2).1
      = .error ⟨"Rate limit exceeded", "RATE_LIMIT"⟩ ∧
    (handleRateLimiting envBase.options
        (mockGenCall { envBase with now := t3 } fuel schema
          (mockGenCall { envBase with now := t2 } fuel schema
            (mockGenCall { envBase with now := t1 } fuel schema st0).2).2).2 t4).1
      = .ok () := by
  have hl0 : ¬((2 : ℚ) = 0) := by norm_num
  have hR1 : handleRateLimiting envBase.options st0 t1
      = (.ok (), { st0 with requestCount := st0.requestCount + 1 }) :=
    handleRateLimiting_ok envBase.options st0 t1 T 2 hrl hri hl0 hT h1
      (by rw [hc0]; norm_num)
  obtain ⟨ix1, hst1⟩ :=
    (mockGenCall_after_gate { envBase with now := t1 } fuel schema st0 hv hq hse).2 _ hR1
  rw [hst1]
  have hR2 : handleRateLimiting envBase.options
      { st0 with requestCount := st0.requestCount + 1, ix := ix1 } t2
      = (.ok (), { st0 with requestCount := st0.requestCount + 1 + 1, ix := ix1 }) :=
    handleRateLimiting_ok envBase.options _ t2 T 2 hrl hri hl0 hT h2
      (by dsimp only; rw [hc0]; norm_num)
  obtain ⟨ix2, hst2⟩ :=
    (mockGenCall_after_gate { envBase with now := t2 } fuel schema _ hv hq hse).2 _ hR2
  rw [hst2]
  have hR3 : handleRateLimiting envBase.options
      { st0 with requestCount := st0.requestCount + 1 + 1, ix := ix2 } t3
      = (.error ⟨"Rate limit exceeded", "RATE_LIMIT"⟩,
         { st0 with requestCount := st0.requestCount + 1 + 1 + 1, ix := ix2 }) :=
    handleRateLimiting_exceed envBase.options _ t3 T 2 hrl hri hl0 hT h3
      (by dsimp only; rw [hc0]; norm_num)
  have hc3 :=
    (mockGenCall_after_gate { envBase with now := t3 } fuel schema _ hv hq hse).1 _ _ hR3
  rw [hc3]
  refine ⟨rfl, ?_⟩
  rw [handleRateLimiting_reset envBase.options
    { st0 with requestCount := st0.requestCount + 1 + 1 + 1, ix := ix2 } t4 T 2
    hrl hri hl0 hT h4 (by norm_num)]

def c8env : GenEnv :=
  { r := fun _ => 0, options := { rateLimit := some 2, rateLimitIntervalMs := some 100 } }

def c8schema : Schema := { name := some "R", fields := [("b", mkScalarField .fboolean {})] }

def c8st0 : GenState := { requestCount := 0, lastReset := 0, quotaUsed := none, ix := 0 }

/-- Witness for C8: limit 2, window 100, calls at 0/10/20 and a gate at 201. -/
theorem C8_rate_limit_two_witness :
    (mockGenCall { c8env with now := (20 : ℚ) } 5 c8schema
        (mockGenCall { c8env with now := (10 : ℚ) } 5 c8schema
          (mockGenCall { c8env with now := (0 : ℚ) } 5 c8schema c8st0).2).2).1
      = .error ⟨"Rate limit exceeded", "RATE_LIMIT"⟩ ∧
    (handleRateLimiting c8env.options
        (mockGenCall { c8env with now := (20 : ℚ) } 5 c8schema
          (mockGenCall { c8env with now := (10 : ℚ) } 5 c8schema
            (mockGenCall { c8env with now := (0 : ℚ) } 5 c8schema c8st0).2).2).2 201).1
      = .ok () :=
  C8_rate_limit_two c8env 5 c8schema c8st0 100 0 10 20 201
    rfl rfl (by norm_num) (by with_unfolding_all rfl) rfl rfl rfl
    (by norm_num [c8st0]) (by norm_num [c8st0]) (by norm_num [c8st0]) (by norm_num [c8st0])

/-- C9: amended — with `maxTokens` set **and nonzero** (0 is falsy in
`this.options.maxTokens && ...`), `generate` first completes the whole value
tree, then counts tokens as the length of the JSON serialization of the
generated data, fails with `MAX_TOKEN_LIMIT` exactly when that count exceeds
the budget, and otherwise returns the fully generated data with that count as
`tokenUsage` — generation is never cut short by the budget. -/
theorem C9_max_tokens_post_hoc (env : GenEnv) (fuel : ℕ) (schema : Schema) (st : GenState)
    (m : ℚ) (hm : env.options.maxTokens = some m) (hm0 : ¬(m = 0))
    (hv : validateSchema schema = .ok ())
    (hrl : env.options.rateLimit = none)
    (hq : env.options.quota = none)
    (hse : env.options.simulateError.getD false = false)
    (hroles : env.options.roles = none)
    (d : JData) (ixg : ℕ)
    (hgen : generateObjectData env fuel schema.fields [] st.ix = (.ok (.vobj d), ixg)) :
    (((jsonStringify (fuel + 1) (.vobj d)).length : ℚ) > m →
      (mockGenCall env fuel schema st).1
        = .error ⟨"Max token limit exceeded ("
            ++ toString (jsonStringify (fuel + 1) (.vobj d)).length ++ "/"
            ++ jsNumToString m ++ ")", "MAX_TOKEN_LIMIT"⟩) ∧
    (¬(((jsonStringify (fuel + 1) (.vobj d)).length : ℚ) > m) →
      ∃ resp, (mockGenCall env fuel schema st).1 = .ok resp ∧
        resp.data = Val.vobj d ∧
        resp.metadata.tokenUsage = (jsonStringify (fuel + 1) (.vobj d)).length) := by
  have hrlid : handleRateLimiting env.options st env.now = (.ok (), st) := by
    unfold handleRateLimiting
    rw [hrl]
  have hqid : handleQuota env.options st = (.ok (), st) := by
    unfold handleQuota
    rw [hq]
  constructor
  · intro hgt
    unfold mockGenCall
    rw [hv]
    try dsimp only
    rw [hrlid]
    try dsimp only
    rw [hqid]
    try dsimp only
    unfold handleGlobalErrorSimulation
    rw [hse]
    simp only [Bool.false_eq_true, if_false]
    rw [hgen]
    dsimp only [asObjKVs]
    rw [hm]
    try dsimp only
    have hcond : (!decide (m = 0)
        && decide (((jsonStringify (fuel + 1) (Val.vobj d)).length : ℚ) > m)) = true := by
      simp [hm0, hgt]
    rw [if_pos hcond, Option.getD_some]
  · intro hle
    unfold mockGenCall
    rw [hv]
    try dsimp only
    rw [hrlid]
    try dsimp only
    rw [hqid]
    try dsimp only
    unfold handleGlobalErrorSimulation
    rw [hse]
    simp only [Bool.false_eq_true, if_false]
    rw [hgen]
    dsimp only [asObjKVs]
    rw [hm]
    try dsimp only
    have hcond : (!decide (m = 0)
        && decide (((jsonStringify (fuel + 1) (Val.vobj d)).length : ℚ) > m)) = false := by
      simp [hle]
    rw [hcond]
    simp only [Bool.false_eq_true, if_false]
    rw [hroles]
    try dsimp only
    refine ⟨_, rfl, ?_, rfl⟩
    simp [Option.getD]

def c9opts : MockGeneratorOptions := { maxTokens := some 0 }

def c9env : GenEnv := { r := fun _ => 0, options := c9opts }

def c9schema : Schema := { name := some "T", fields := [("b", mkScalarField .fboolean {})] }

def c9st : GenState := { requestCount := 0, lastReset := 0, quotaUsed := none, ix := 0 }

/-- With `maxTokens = 0` the budget is falsy (`this.options.maxTokens && ...`)
and never enforced: the serialized data counts 10 tokens, `10 > 0`, yet the
call succeeds — and even reports the over-budget usage. -/
theorem C9_zero_maxTokens_counterexample :
    c9env.options.maxTokens = some 0 ∧
    (match (mockGenCall c9env 5 c9schema c9st).1 with
     | .ok resp => some resp.metadata.tokenUsage
     | .error _ => none) = some 10 ∧
    ((10 : ℚ) > 0) :=
  ⟨rfl, by with_unfolding_all rfl, by norm_num⟩

def c9envW : GenEnv := { r := fun _ => 0, options := { maxTokens := some 1 } }

/-- Witness for C9 at `maxTokens = 1` and a one-boolean schema whose JSON
serialization has 10 characters. -/
theorem C9_max_tokens_post_hoc_witness :
    (((jsonStringify 6 (Val.vobj [("b", Val.vbool true)])).length : ℚ) > 1 →
      (mockGenCall c9envW 5 c9schema c9st).1
        = .error ⟨"Max token limit exceeded ("
            ++ toString (jsonStringify 6 (Val.vobj [("b", Val.vbool true)])).length ++ "/"
            ++ jsNumToString 1 ++ ")", "MAX_TOKEN_LIMIT"⟩) ∧
    (¬(((jsonStringify 6 (Val.vobj [("b", Val.vbool true)])).length : ℚ) > 1) →
      ∃ resp, (mockGenCall c9envW 5 c9schema c9st).1 = .ok resp ∧
        resp.data = Val.vobj [("b", Val.vbool true)] ∧
        resp.metadata.tokenUsage = (jsonStringify 6 (Val.vobj [("b", Val.vbool true)])).length) :=
  C9_max_tokens_post_hoc c9envW 5 c9schema c9st 1 rfl (by norm_num)
    (by with_unfolding_all rfl) rfl rfl rfl rfl [("b", Val.vbool true)] 1
    (by with_unfolding_all rfl)
